import Mathlib

/-!
# Verification of the Unmatch persistence core

Shallow embedding of the backup/restore subsystem and the pure progress
rules of the `ts3486/unmatch` repository, together with proofs of the
specification's claims about them.

Embedded source:
* `src/domain/progress-rules.ts` — `calculateResistRank`, `calculateStreak`
  (with its `subtractOneDay` helper), `shouldIncrementResist`,
  `shouldIncrementSpendAvoided`; constants from `src/constants/config.ts`.
* `src/services/data-export.ts` — `gatherExportData`.
* `app/settings/privacy.tsx` — `deleteAllData`.
* `src/services/data-import.ts` is not present in the snapshot (only its
  unit tests and callers are); `validateImportData` and `importData` are
  modelled from the spec, as marked on their doc comments.

JavaScript strings are modelled as `List Char`; JavaScript `Date` UTC
arithmetic is modelled by the ECMAScript-specified calendar functions
(`DayFromYear`, `DaysInYear`, `MakeDay`, and the `MonthFromTime` /
`DateFromTime` ladder) over `Int`, where `/` and `%` coincide with the
floor division and sign-of-divisor modulo that ECMAScript prescribes,
because every divisor involved is a positive literal.
-/

/-! ## Rank and counter rules (`src/constants/config.ts`, progress rules) -/

/-- `RESIST_RANK_START` — starting rank for every new user. -/
def RESIST_RANK_START : Int := 1

/-- `RESIST_RANK_CAP` — maximum rank a user can reach. -/
def RESIST_RANK_CAP : Int := 30

/-- `RESIST_RANK_RESISTS_PER_LEVEL` — successful resists per rank step. -/
def RESIST_RANK_RESISTS_PER_LEVEL : Int := 5

/-- `calculateResistRank` from the progress rules: negative input returns the
start rank; otherwise `floor(total / perLevel) + start`, capped. -/
def calculateResistRank (resistCountTotal : Int) : Int :=
  if resistCountTotal < 0 then
    RESIST_RANK_START
  else
    min (resistCountTotal / RESIST_RANK_RESISTS_PER_LEVEL + RESIST_RANK_START)
      RESIST_RANK_CAP

/-- `UrgeOutcome` enum from the domain types (`success / ongoing / fail`). -/
inductive UrgeOutcome where
  | success
  | ongoing
  | fail
deriving DecidableEq

/-- `UrgeKind` enum from the domain types (`swipe / check / spend`). -/
inductive UrgeKind where
  | swipe
  | check
  | spend
deriving DecidableEq

/-- `shouldIncrementResist` — true only for the `success` outcome. -/
def shouldIncrementResist (outcome : UrgeOutcome) : Bool :=
  outcome = UrgeOutcome.success

/-- `shouldIncrementSpendAvoided` — true only for a successfully resisted
spend urge. -/
def shouldIncrementSpendAvoided (urgeKind : UrgeKind) (outcome : UrgeOutcome) :
    Bool :=
  urgeKind = UrgeKind.spend && outcome = UrgeOutcome.success

/-! ## ECMAScript calendar model

The streak code calls `new Date(Date.UTC(year, month, day - 1))` and reads
the result back through `getUTCFullYear / getUTCMonth / getUTCDate`.  These
builtins are specified by ECMAScript §21.4.1 in terms of `DayFromYear`,
`DaysInYear`, `MakeDay`, `YearFromTime`, `MonthFromTime` and
`DateFromTime`; the definitions below transcribe those operations on whole
days (the time-within-day component is always zero here). -/

/-- ECMAScript `DayFromYear(y)`: day number of 1 January of year `y`,
relative to the epoch 1970-01-01. -/
def dayFromYear (y : Int) : Int :=
  365 * (y - 1970) + (y - 1969) / 4 - (y - 1901) / 100 + (y - 1601) / 400

/-- ECMAScript `DaysInYear(y)` (the spec's divisibility ladder). -/
def daysInYear (y : Int) : Int :=
  if y % 4 ≠ 0 then 365
  else if y % 100 ≠ 0 then 366
  else if y % 400 ≠ 0 then 365
  else 366

/-- ECMAScript `InLeapYear` as a 0/1 integer: `DaysInYear(y) - 365`. -/
def inLeapYear (y : Int) : Int := daysInYear y - 365

/-- First day-within-year of 0-based month `mn` (the cumulative offsets used
by ECMAScript `MonthFromTime` / `DateFromTime`). -/
def monthStart (leap mn : Int) : Int :=
  if mn = 0 then 0
  else if mn = 1 then 31
  else if mn = 2 then 59 + leap
  else if mn = 3 then 90 + leap
  else if mn = 4 then 120 + leap
  else if mn = 5 then 151 + leap
  else if mn = 6 then 181 + leap
  else if mn = 7 then 212 + leap
  else if mn = 8 then 243 + leap
  else if mn = 9 then 273 + leap
  else if mn = 10 then 304 + leap
  else 334 + leap

/-- ECMAScript `MakeDay(y, m, d)` with 0-based month `m` (arbitrary
integers; month overflow carries into the year). -/
def makeDay (y m d : Int) : Int :=
  dayFromYear (y + m / 12) + monthStart (inLeapYear (y + m / 12)) (m % 12) +
    (d - 1)

/-- Bounded downward search for `YearFromTime`: first `y` at or below the
start candidate with `dayFromYear y ≤ z`. -/
def yearSearch (z : Int) : Nat → Int → Int
  | 0, y => y
  | fuel + 1, y =>
    if dayFromYear y ≤ z then y else yearSearch z fuel (y - 1)

/-- ECMAScript `YearFromTime` on day numbers: the largest `y` with
`dayFromYear y ≤ z`.  The start candidate `1970 + 400·z/146097 + 2` is at
most three years above the answer (`yearFromDay_eq` proves this), so fuel 8
always suffices. -/
def yearFromDay (z : Int) : Int :=
  yearSearch z 8 (1970 + 400 * z / 146097 + 2)

/-- ECMAScript `YearFromTime` / `MonthFromTime` / `DateFromTime` combined:
civil `(year, month 1..12, day 1..31)` of a day number. -/
def civilFromDays (z : Int) : Int × Int × Int :=
  let y := yearFromDay z
  let leap := inLeapYear y
  let dwy := z - dayFromYear y
  if dwy < 31 then (y, 1, dwy + 1)
  else if dwy < 59 + leap then (y, 2, dwy - 30)
  else if dwy < 90 + leap then (y, 3, dwy - 58 - leap)
  else if dwy < 120 + leap then (y, 4, dwy - 89 - leap)
  else if dwy < 151 + leap then (y, 5, dwy - 119 - leap)
  else if dwy < 181 + leap then (y, 6, dwy - 150 - leap)
  else if dwy < 212 + leap then (y, 7, dwy - 180 - leap)
  else if dwy < 243 + leap then (y, 8, dwy - 211 - leap)
  else if dwy < 273 + leap then (y, 9, dwy - 242 - leap)
  else if dwy < 304 + leap then (y, 10, dwy - 272 - leap)
  else if dwy < 334 + leap then (y, 11, dwy - 303 - leap)
  else (y, 12, dwy - 333 - leap)

/-- ECMAScript `TimeClip` restated on whole days: a constructed `Date` is
valid only within ±100,000,000 days of the epoch. -/
def timeClipDays (z : Int) : Option Int :=
  if z.natAbs ≤ 100000000 then some z else none

/-- `Date.prototype.getUTCFullYear` of a date holding day number `z`
(`none` models `NaN` for an invalid date). -/
def getUTCFullYear (z : Int) : Option Int :=
  (timeClipDays z).map fun t => (civilFromDays t).1

/-- `Date.prototype.getUTCMonth` (0-based month, `none` models `NaN`). -/
def getUTCMonth (z : Int) : Option Int :=
  (timeClipDays z).map fun t => (civilFromDays t).2.1 - 1

/-- `Date.prototype.getUTCDate` (`none` models `NaN`). -/
def getUTCDate (z : Int) : Option Int :=
  (timeClipDays z).map fun t => (civilFromDays t).2.2

/-- Days in civil month `m` (1..12) of year `y`; February follows
`DaysInYear`. -/
def daysInMonth (y m : Int) : Int :=
  if m = 2 then 28 + inLeapYear y
  else if m = 4 ∨ m = 6 ∨ m = 9 ∨ m = 11 then 30
  else 31

/-! ## JavaScript string model

JS strings are sequences of characters; they are modelled as `List Char`.
`splitDash`, `parseInt10` and `padStart2` transcribe `String.prototype.split`
(with separator `"-"`), `Number.parseInt(·, 10)` and
`String.prototype.padStart(2, "0")`. -/

/-- A JavaScript string. -/
abbrev JsStr := List Char

/-- Decimal digit test used by `parseInt` with radix 10. -/
def isDigitCh (c : Char) : Bool := 48 ≤ c.toNat && c.toNat ≤ 57

/-- Numeric value of a decimal digit character. -/
def digitVal (c : Char) : Nat := c.toNat - 48

/-- Value of a run of decimal digits, most significant first. -/
def digitsToNat (cs : List Char) : Nat :=
  cs.foldl (fun acc c => acc * 10 + digitVal c) 0

/-- JS whitespace skipped by `parseInt`. -/
def isJsWhitespace (c : Char) : Bool :=
  c = ' ' || c = '\t' || c = '\n' || c = '\r'

/-- Longest decimal-digit prefix, `none` when it is empty (`parseInt`
returns `NaN` in that case). -/
def digitPrefixVal (cs : List Char) : Option Nat :=
  match cs.takeWhile isDigitCh with
  | [] => none
  | ds => some (digitsToNat ds)

/-- `Number.parseInt(s, 10)`: skip leading whitespace, read an optional
sign, then the longest run of decimal digits; `none` models `NaN`. -/
def parseInt10 (s : JsStr) : Option Int :=
  match s.dropWhile isJsWhitespace with
  | '-' :: rest => (digitPrefixVal rest).map fun n => -(n : Int)
  | '+' :: rest => (digitPrefixVal rest).map fun n => (n : Int)
  | rest => (digitPrefixVal rest).map fun n => (n : Int)

/-- `String.prototype.split("-")`: maximal dash-free chunks, keeping empty
chunks exactly as JavaScript does. -/
def splitDash : List Char → List (List Char)
  | [] => [[]]
  | c :: cs =>
    if c = '-' then [] :: splitDash cs
    else
      match splitDash cs with
      | [] => [[c]]
      | p :: ps => (c :: p) :: ps

/-- `String.prototype.padStart(2, "0")`. -/
def padStart2 (s : JsStr) : JsStr :=
  if s.length < 2 then List.replicate (2 - s.length) '0' ++ s else s

/-- Decimal digits of a natural number, most significant first (fuel-based
so that it evaluates inside the kernel; `natToCharsAux_fuel` shows the fuel
is irrelevant once sufficient). -/
def natToCharsAux : Nat → Nat → List Char
  | 0, _ => []
  | fuel + 1, n =>
    if n < 10 then [Nat.digitChar n]
    else natToCharsAux fuel (n / 10) ++ [Nat.digitChar (n % 10)]

/-- `String(n)` for a non-negative number. -/
def natToChars (n : Nat) : List Char := natToCharsAux (n + 1) n

/-- `String(i)` for an integer (the template literal conversion). -/
def intToChars (i : Int) : List Char :=
  if i < 0 then '-' :: natToChars (-i).toNat else natToChars i.toNat

/-- `String(v)` where `v` is a number that may be `NaN` (`none`). -/
def jsNumToChars : Option Int → List Char
  | none => ['N', 'a', 'N']
  | some i => intToChars i

/-! ## `subtractOneDay` and `calculateStreak` (progress rules) -/

/-- `subtractOneDay(dateLocal)` from the progress rules: split on `"-"`,
`parseInt` the three components, build `new Date(Date.UTC(year, month,
day - 1))` with the 0-based month, and re-format the UTC components as
`` `${y}-${m}-${dd}` `` with `padStart(2, "0")` on month and day. -/
def subtractOneDay (dateLocal : JsStr) : JsStr :=
  let parts := splitDash dateLocal
  let year := (parts.get? 0).bind parseInt10
  let month := ((parts.get? 1).bind parseInt10).map fun n => n - 1
  let day := (parts.get? 2).bind parseInt10
  match year, month, day with
  | some ys, some ms, some ds =>
    let t := makeDay ys ms (ds - 1)
    jsNumToChars (getUTCFullYear t) ++
      '-' :: padStart2 (jsNumToChars ((getUTCMonth t).map fun m => m + 1)) ++
      '-' :: padStart2 (jsNumToChars (getUTCDate t))
  | _, _, _ =>
    jsNumToChars none ++
      '-' :: padStart2 (jsNumToChars none) ++
      '-' :: padStart2 (jsNumToChars none)

/-- One step of the `while (successSet.has(current))` loop of
`calculateStreak`, with explicit fuel standing for the unbounded JS loop
(`streakLoop_fuel_ge` shows any fuel beyond one per distinct date plus one
gives the same answer on well-formed dates). -/
def streakLoop (successSet : List JsStr) : JsStr → Nat → Nat
  | _, 0 => 0
  | current, fuel + 1 =>
    if current ∈ successSet then
      streakLoop successSet (subtractOneDay current) fuel + 1
    else 0

/-- `calculateStreak(dates, today)` from the progress rules. -/
def calculateStreak (dates : List JsStr) (today : JsStr) : Nat :=
  streakLoop dates today (dates.length + 1)

/-! ## Well-formed date strings -/

/-- A well-formed `YYYY-MM-DD` string: exactly three dash-separated
components that parse to a real calendar date with a four-digit year, each
written canonically (year unpadded, month and day padded to two digits). -/
def validDateString (s : JsStr) : Bool :=
  match splitDash s with
  | [ys, ms, ds] =>
    match parseInt10 ys, parseInt10 ms, parseInt10 ds with
    | some y, some m, some d =>
      decide (1000 ≤ y) && decide (y ≤ 9999) &&
        decide (1 ≤ m) && decide (m ≤ 12) &&
        decide (1 ≤ d) && decide (d ≤ daysInMonth y m) &&
        decide (ys = intToChars y) &&
        decide (ms = padStart2 (intToChars m)) &&
        decide (ds = padStart2 (intToChars d))
    | _, _, _ => false
  | _ => false

/-- Day number denoted by a date string (0 for strings that do not parse);
the observable a streak step moves backward on. -/
def dayNum (s : JsStr) : Int :=
  match splitDash s with
  | ys :: ms :: ds :: _ =>
    match parseInt10 ys, parseInt10 ms, parseInt10 ds with
    | some y, some m, some d => makeDay y (m - 1) d
    | _, _, _ => 0
  | _ => 0

/-- Canonical string of a civil date, as the export/streak code prints it. -/
def canonDate (y m d : Int) : JsStr :=
  intToChars y ++ '-' :: padStart2 (intToChars m) ++ '-' :: padStart2 (intToChars d)

/-- Calendar predecessor of a civil date. -/
def predCivil (y m d : Int) : Int × Int × Int :=
  if 2 ≤ d then (y, m, d - 1)
  else if 2 ≤ m then (y, m - 1, daysInMonth y (m - 1))
  else (y - 1, 12, 31)

/-! ## Calendar lemmas -/

/-- Joining the chunks produced by `splitDash` with dashes restores the
string. -/
def joinDash : List (List Char) → List Char
  | [] => []
  | [p] => p
  | p :: ps => p ++ '-' :: joinDash ps

/-- A JSON value (what `JSON.parse` of the backup file can produce). -/
inductive JsVal where
  | nullV
  | boolV (b : Bool)
  | numV (q : ℚ)
  | strV (s : String)
  | arrV (elems : List JsVal)
  | objV (fields : List (String × JsVal))

/-- A stored row: column names with their values, in column order. -/
abbrev Row := List (String × JsVal)

/-- The six underlying tables of the local store. -/
structure Store where
  user_profile : List Row
  urge_event : List Row
  daily_checkin : List Row
  progress : List Row
  content_progress : List Row
  subscription_state : List Row

/-- `APP_VERSION` from `src/services/data-export.ts`. -/
def APP_VERSION : String := "1.0.0"

/-- Typed shape of the export envelope's `tables` object, keyed by logical
names (`src/services/data-export.ts`, `ExportEnvelope`). -/
structure ExportTables where
  user_profile : List Row
  urge_events : List Row
  daily_checkins : List Row
  progress : List Row
  content_progress : List Row
  subscription_state : List Row

/-- `ExportEnvelope` from `src/services/data-export.ts`. -/
structure ExportEnvelope where
  version : ℚ
  exported_at : String
  app_version : String
  tables : ExportTables

/-- `gatherExportData` from `src/services/data-export.ts`: `SELECT *` over
all six tables and wrap the rows, unchanged, in a version-1 envelope keyed
by logical table names.  The `new Date().toISOString()` timestamp is the
injected `exportedAt` argument. -/
def gatherExportData (db : Store) (exportedAt : String) : ExportEnvelope :=
  { version := 1
    exported_at := exportedAt
    app_version := APP_VERSION
    tables :=
      { user_profile := db.user_profile
        urge_events := db.urge_event
        daily_checkins := db.daily_checkin
        progress := db.progress
        content_progress := db.content_progress
        subscription_state := db.subscription_state } }

/-- The JSON value that serializing an envelope with `JSON.stringify` and
re-parsing produces: each row becomes an object with every column
verbatim. -/
def envelopeToJsVal (e : ExportEnvelope) : JsVal :=
  JsVal.objV
    [("version", JsVal.numV e.version),
     ("exported_at", JsVal.strV e.exported_at),
     ("app_version", JsVal.strV e.app_version),
     ("tables", JsVal.objV
       [("user_profile", JsVal.arrV (e.tables.user_profile.map JsVal.objV)),
        ("urge_events", JsVal.arrV (e.tables.urge_events.map JsVal.objV)),
        ("daily_checkins", JsVal.arrV (e.tables.daily_checkins.map JsVal.objV)),
        ("progress", JsVal.arrV (e.tables.progress.map JsVal.objV)),
        ("content_progress", JsVal.arrV (e.tables.content_progress.map JsVal.objV)),
        ("subscription_state", JsVal.arrV (e.tables.subscription_state.map JsVal.objV))])]

/-! ## Import service (modelled from the spec) -/

/-- Failure taxonomy of the import path (spec §7): structural errors carry
what was wrong, `storage` stands for an underlying write failure. -/
inductive ImportError where
  | notAnObject (received : String)
  | badVersion
  | tablesNotAnObject
  | badTableValue (key : String)
  | rowNotObject (table : String)
  | missingColumn (table : String)
  | storage
deriving DecidableEq

/-- Per-table row counts returned by validation (spec §4.3, step 5). -/
structure ImportTableCounts where
  user_profile : Nat
  urge_events : Nat
  daily_checkins : Nat
  progress : Nat
  content_progress : Nat
  subscription_state : Nat
deriving DecidableEq

/-- JavaScript property lookup on an object literal. -/
def lookupKey (fields : List (String × JsVal)) (k : String) : Option JsVal :=
  match fields with
  | [] => none
  | (k2, v) :: rest => if k2 = k then some v else lookupKey rest k

/-- The runtime type name a structural error reports. -/
def typeofName : JsVal → String
  | JsVal.nullV => "null"
  | JsVal.boolV _ => "boolean"
  | JsVal.numV _ => "number"
  | JsVal.strV _ => "string"
  | JsVal.arrV _ => "array"
  | JsVal.objV _ => "object"

/-- Require a table key to hold a sequence (spec §4.3 validate, step 4). -/
def requireArray (tf : List (String × JsVal)) (k : String) :
    Except ImportError (List JsVal) :=
  match lookupKey tf k with
  | some (JsVal.arrV l) => Except.ok l
  | _ => Except.error (ImportError.badTableValue k)

/-- Modelled from the spec: `validateImportData` of
`src/services/data-import.ts`, which is absent from the snapshot (only its
unit tests and callers are present).  Per spec §4.3 `validate`: the input
must be a structured object (else a structural error naming the received
type); it must carry `version` equal to exactly the number 1 (else a
version error); `tables` must be a structured object; all six logical keys
must map to sequences; on success the per-table row counts are returned.
No mutation is performed. -/
def validateImportData (input : JsVal) :
    Except ImportError ImportTableCounts :=
  match input with
  | JsVal.objV fields =>
    match lookupKey fields "version" with
    | some (JsVal.numV q) =>
      if q = 1 then
        match lookupKey fields "tables" with
        | some (JsVal.objV tf) => do
          let up ← requireArray tf "user_profile"
          let ue ← requireArray tf "urge_events"
          let dc ← requireArray tf "daily_checkins"
          let pr ← requireArray tf "progress"
          let cp ← requireArray tf "content_progress"
          let ss ← requireArray tf "subscription_state"
          pure ⟨up.length, ue.length, dc.length, pr.length, cp.length, ss.length⟩
        | _ => Except.error ImportError.tablesNotAnObject
      else Except.error ImportError.badVersion
    | _ => Except.error ImportError.badVersion
  | v => Except.error (ImportError.notAnObject (typeofName v))

/-- A write statement against the underlying store. -/
inductive DbOp where
  | deleteAll (table : String)
  | insertRow (table : String) (columns : List String) (values : List JsVal)

/-- Logical-to-underlying table name mapping (spec §4.3 step 3): two
logical keys differ from their storage names, the rest match. -/
def underlyingTable (k : String) : String :=
  if k = "urge_events" then "urge_event"
  else if k = "daily_checkins" then "daily_checkin"
  else k

/-- Read one underlying table of the store by name. -/
def getTable (db : Store) (t : String) : List Row :=
  if t = "user_profile" then db.user_profile
  else if t = "urge_event" then db.urge_event
  else if t = "daily_checkin" then db.daily_checkin
  else if t = "progress" then db.progress
  else if t = "content_progress" then db.content_progress
  else if t = "subscription_state" then db.subscription_state
  else []

/-- Replace one underlying table of the store by name. -/
def setTable (db : Store) (t : String) (rows : List Row) : Store :=
  if t = "user_profile" then { db with user_profile := rows }
  else if t = "urge_event" then { db with urge_event := rows }
  else if t = "daily_checkin" then { db with daily_checkin := rows }
  else if t = "progress" then { db with progress := rows }
  else if t = "content_progress" then { db with content_progress := rows }
  else if t = "subscription_state" then { db with subscription_state := rows }
  else db

/-- Effect of one successful write statement. -/
def applyOp (db : Store) : DbOp → Store
  | DbOp.deleteAll t => setTable db t []
  | DbOp.insertRow t cols vals => setTable db t (getTable db t ++ [cols.zip vals])

/-- One statement of the commit script: a write, or the structural error
discovered at that point of the row stream. -/
abbrev ScriptItem := Except ImportError DbOp

/-- Values of the given columns in a row object, `none` when a column is
absent (the column-shape failure of spec §4.3). -/
def colValues (rf : List (String × JsVal)) : List String → Option (List JsVal)
  | [] => some []
  | c :: cs =>
    match lookupKey rf c, colValues rf cs with
    | some v, some vs => some (v :: vs)
    | _, _ => none

/-- Insert statements for one logical table: the column set is taken from
the table's first row; every row must be a structured object supplying
those columns (spec §4.3 commit, step 2). -/
def insertOps (tableKey : String) (rows : List JsVal) : List ScriptItem :=
  match rows with
  | [] => []
  | first :: _ =>
    match first with
    | JsVal.objV ffields =>
      let cols := ffields.map Prod.fst
      rows.map fun r =>
        match r with
        | JsVal.objV rf =>
          match colValues rf cols with
          | some vals =>
            Except.ok (DbOp.insertRow (underlyingTable tableKey) cols vals)
          | none =>
            Except.error (ImportError.missingColumn (underlyingTable tableKey))
        | _ => Except.error (ImportError.rowNotObject (underlyingTable tableKey))
    | _ => [Except.error (ImportError.rowNotObject (underlyingTable tableKey))]

/-- The six logical table keys, in the commit's fixed deterministic
order. -/
def logicalKeys : List String :=
  ["user_profile", "urge_events", "daily_checkins", "progress",
   "content_progress", "subscription_state"]

/-- Rows of one logical table of an untrusted envelope value. -/
def envTableRows (input : JsVal) (k : String) : List JsVal :=
  match input with
  | JsVal.objV fields =>
    match lookupKey fields "tables" with
    | some (JsVal.objV tf) =>
      match lookupKey tf k with
      | some (JsVal.arrV l) => l
      | _ => []
    | _ => []
  | _ => []

/-- The commit script: delete all six underlying tables in the fixed order,
then insert every row of each logical table (spec §4.3 commit, steps
1–3). -/
def importScript (input : JsVal) : List ScriptItem :=
  (logicalKeys.map fun k => Except.ok (DbOp.deleteAll (underlyingTable k))) ++
    logicalKeys.flatMap fun k => insertOps k (envTableRows input k)

/-- Run a script against the raw store: statements execute sequentially,
mutating the store as they go; the `i`-th write fails when `fails i`, and
execution stops at the first structural or storage error, leaving the
partial state. -/
def runScript (fails : Nat → Bool) :
    List ScriptItem → Nat → Store → Store × Option ImportError
  | [], _, db => (db, none)
  | Except.error e :: _, _, db => (db, some e)
  | Except.ok op :: rest, i, db =>
    if fails i then (db, some ImportError.storage)
    else runScript fails rest (i + 1) (applyOp db op)

/-- The store's exclusive-transaction primitive (spec §2, Local Store):
everything inside commits together, or the initial state is restored. -/
def withExclusiveTransaction (db : Store)
    (body : Store → Store × Option ImportError) : Store × Option ImportError :=
  match body db with
  | (db2, none) => (db2, none)
  | (_, some e) => (db, some e)

/-- Modelled from the spec: `importData` (commit) of
`src/services/data-import.ts`, which is absent from the snapshot (only its
unit tests and callers are present).  Per spec §4.3 `commit`: inside
exactly one exclusive transaction, delete all six underlying tables in a
fixed order (with the logical-to-underlying name mapping applied), then
insert every row of each non-empty logical table with the column set taken
from that table's first row; any structural or storage failure aborts the
whole transaction. -/
def importData (fails : Nat → Bool) (db : Store) (input : JsVal) :
    Store × Option ImportError :=
  withExclusiveTransaction db (runScript fails (importScript input) 0)

/-- The six underlying delete statements of `deleteAllData` in
`app/settings/privacy.tsx`, in source order. -/
def deleteAllDataOps : List DbOp :=
  [DbOp.deleteAll "content_progress", DbOp.deleteAll "urge_event",
   DbOp.deleteAll "daily_checkin", DbOp.deleteAll "progress",
   DbOp.deleteAll "user_profile", DbOp.deleteAll "subscription_state"]

/-- `deleteAllData` from `app/settings/privacy.tsx`: six sequential awaited
`runAsync` DELETE statements with no wrapping transaction; a rejection
aborts the remaining deletes, leaving whatever was already deleted. -/
def deleteAllData (fails : Nat → Bool) (db : Store) :
    Store × Option ImportError :=
  runScript fails (deleteAllDataOps.map Except.ok) 0 db

/-! ## Claims about the import/export subsystem -/

/-- A populated pre-commit store used as the atomicity witness. -/
def exRow1 : Row := [("id", JsVal.strV "singleton"), ("locale", JsVal.strV "en")]

def exStore : Store := ⟨[exRow1], [exRow1], [exRow1], [exRow1], [exRow1], [exRow1]⟩

/-- The spec's atomicity scenario: a valid first table, then a malformed
(non-object) row in a later table. -/
def badEnvelope : JsVal :=
  JsVal.objV
    [("version", JsVal.numV 1),
     ("exported_at", JsVal.strV "2026-02-28T00:00:00.000Z"),
     ("app_version", JsVal.strV "1.0.0"),
     ("tables", JsVal.objV
       [("user_profile", JsVal.arrV [JsVal.objV exRow1]),
        ("urge_events", JsVal.arrV [JsVal.numV 3]),
        ("daily_checkins", JsVal.arrV []),
        ("progress", JsVal.arrV []),
        ("content_progress", JsVal.arrV []),
        ("subscription_state", JsVal.arrV [])])]

/-- The `tables` object of the serialized export envelope, per underlying
table. -/
def exportTablesJson (db : Store) : List (String × JsVal) :=
  [("user_profile", JsVal.arrV (db.user_profile.map JsVal.objV)),
   ("urge_events", JsVal.arrV (db.urge_event.map JsVal.objV)),
   ("daily_checkins", JsVal.arrV (db.daily_checkin.map JsVal.objV)),
   ("progress", JsVal.arrV (db.progress.map JsVal.objV)),
   ("content_progress", JsVal.arrV (db.content_progress.map JsVal.objV)),
   ("subscription_state", JsVal.arrV (db.subscription_state.map JsVal.objV))]

/-- Rows within one logical table share the first row's column list (the
export side guarantees this: `SELECT *` rows all carry the schema columns),
with no duplicate column names. -/
def wellShaped (rows : List Row) : Prop :=
  match rows with
  | [] => True
  | first :: _ =>
    (first.map Prod.fst).Nodup ∧ ∀ r ∈ rows, r.map Prod.fst = first.map Prod.fst

/-- The six underlying table names. -/
def tableNames : List String :=
  ["user_profile", "urge_event", "daily_checkin", "progress",
   "content_progress", "subscription_state"]

/-- The write oracle with no failures. -/
def noFail : Nat → Bool := fun _ => false

/-! ## Theorems -/

theorem dayFromYear_succ (y : Int) :
    dayFromYear (y + 1) = dayFromYear y + daysInYear y := by
  simp only [dayFromYear, daysInYear]
  split <;> [skip; split] <;> [skip; skip; split] <;> omega

theorem dayFromYear_estimate (y : Int) :
    146097 * (y - 1970) - 788 ≤ 400 * dayFromYear y ∧
    400 * dayFromYear y ≤ 146097 * (y - 1970) + 788 := by
  simp only [dayFromYear]
  omega

theorem dayFromYear_mono (y w : Int) (h : y ≤ w) :
    dayFromYear y ≤ dayFromYear w := by
  simp only [dayFromYear]
  omega

theorem inLeapYear_cases (y : Int) : inLeapYear y = 0 ∨ inLeapYear y = 1 := by
  simp only [inLeapYear, daysInYear]
  split <;> [skip; split] <;> [skip; skip; split] <;> omega

theorem daysInYear_eq (y : Int) : daysInYear y = 365 + inLeapYear y := by
  simp only [inLeapYear]
  omega

theorem yearSearch_eq (z Y : Int) (f : Nat) :
    ∀ y0 : Int, dayFromYear Y ≤ z → z < dayFromYear (Y + 1) →
      Y ≤ y0 → y0 ≤ Y + f → yearSearch z f y0 = Y := by
  induction f with
  | zero =>
    intro y0 _ _ h3 h4
    simp only [yearSearch]
    omega
  | succ f ih =>
    intro y0 h1 h2 h3 h4
    simp only [yearSearch]
    split
    · rename_i h5
      by_contra hne
      have hY1 : Y + 1 ≤ y0 := by omega
      have := dayFromYear_mono (Y + 1) y0 hY1
      omega
    · rename_i h5
      have hne : y0 ≠ Y := fun he => h5 (he ▸ h1)
      exact ih (y0 - 1) h1 h2 (by omega) (by omega)

theorem yearFromDay_eq (z Y : Int) (h1 : dayFromYear Y ≤ z)
    (h2 : z < dayFromYear (Y + 1)) : yearFromDay z = Y := by
  have e1 := dayFromYear_estimate Y
  have e2 := dayFromYear_estimate (Y + 1)
  exact yearSearch_eq z Y 8 _ h1 h2 (by omega) (by omega)

theorem monthStart0 (leap : Int) : monthStart leap 0 = 0 := rfl

theorem monthStart1 (leap : Int) : monthStart leap 1 = 31 := rfl

theorem monthStart2 (leap : Int) : monthStart leap 2 = 59 + leap := rfl

theorem monthStart3 (leap : Int) : monthStart leap 3 = 90 + leap := rfl

theorem monthStart4 (leap : Int) : monthStart leap 4 = 120 + leap := rfl

theorem monthStart5 (leap : Int) : monthStart leap 5 = 151 + leap := rfl

theorem monthStart6 (leap : Int) : monthStart leap 6 = 181 + leap := rfl

theorem monthStart7 (leap : Int) : monthStart leap 7 = 212 + leap := rfl

theorem monthStart8 (leap : Int) : monthStart leap 8 = 243 + leap := rfl

theorem monthStart9 (leap : Int) : monthStart leap 9 = 273 + leap := rfl

theorem monthStart10 (leap : Int) : monthStart leap 10 = 304 + leap := rfl

theorem monthStart11 (leap : Int) : monthStart leap 11 = 334 + leap := rfl

theorem monthStart_m_nonneg (y m : Int) (hm1 : 1 ≤ m) (hm2 : m ≤ 12) :
    0 ≤ monthStart (inLeapYear y) (m - 1) := by
  have hl := inLeapYear_cases y
  interval_cases m <;>
    norm_num [monthStart0, monthStart1, monthStart2, monthStart3,
      monthStart4, monthStart5, monthStart6, monthStart7, monthStart8,
      monthStart9, monthStart10, monthStart11] <;>
    omega

theorem monthStart_window (y m : Int) (hm1 : 1 ≤ m) (hm2 : m ≤ 12) :
    monthStart (inLeapYear y) (m - 1) + daysInMonth y m ≤ 365 + inLeapYear y := by
  have hl := inLeapYear_cases y
  interval_cases m <;>
    norm_num [monthStart0, monthStart1, monthStart2, monthStart3,
      monthStart4, monthStart5, monthStart6, monthStart7, monthStart8,
      monthStart9, monthStart10, monthStart11, daysInMonth] <;>
    omega

theorem monthStart_step (y m : Int) (hm1 : 1 ≤ m) (hm2 : m ≤ 11) :
    monthStart (inLeapYear y) m =
      monthStart (inLeapYear y) (m - 1) + daysInMonth y m := by
  interval_cases m <;>
    norm_num [monthStart0, monthStart1, monthStart2, monthStart3,
      monthStart4, monthStart5, monthStart6, monthStart7, monthStart8,
      monthStart9, monthStart10, monthStart11, daysInMonth] <;>
    omega

/-- For a real calendar date (1-based month in 1..12), `MakeDay` applied to
the 0-based month is day-within-year arithmetic inside year `y`. -/
theorem makeDay_eq_civil (y m d : Int) (hm1 : 1 ≤ m) (hm2 : m ≤ 12) :
    makeDay y (m - 1) d =
      dayFromYear y + monthStart (inLeapYear y) (m - 1) + (d - 1) := by
  simp only [makeDay]
  have h1 : (m - 1) / 12 = 0 := by omega
  have h2 : (m - 1) % 12 = m - 1 := by omega
  rw [h1, h2]
  norm_num

/-! Branch-by-branch inversion of the `MonthFromTime` / `DateFromTime`
ladder: if the day-within-year sits in month `k`'s window, `civilFromDays`
returns month `k` and the corresponding day of month. -/
theorem civilAt1 (z y d : Int) (hy : yearFromDay z = y)
    (hd : z - dayFromYear y = 0 + (d - 1))
    (h1 : 1 ≤ d) (h2 : d ≤ 31) :
    civilFromDays z = (y, 1, d) := by
  have hl := inLeapYear_cases y
  simp only [civilFromDays, hy]
  rw [if_pos (by omega)]
  simp only [Prod.mk.injEq, true_and]
  omega

theorem civilAt2 (z y d : Int) (hy : yearFromDay z = y)
    (hd : z - dayFromYear y = 31 + (d - 1))
    (h1 : 1 ≤ d) (h2 : d ≤ 28 + inLeapYear y) :
    civilFromDays z = (y, 2, d) := by
  have hl := inLeapYear_cases y
  simp only [civilFromDays, hy]
  rw [if_neg (by omega)]
  rw [if_pos (by omega)]
  simp only [Prod.mk.injEq, true_and]
  omega

theorem civilAt3 (z y d : Int) (hy : yearFromDay z = y)
    (hd : z - dayFromYear y = 59 + inLeapYear y + (d - 1))
    (h1 : 1 ≤ d) (h2 : d ≤ 31) :
    civilFromDays z = (y, 3, d) := by
  have hl := inLeapYear_cases y
  simp only [civilFromDays, hy]
  iterate 2 rw [if_neg (by omega)]
  rw [if_pos (by omega)]
  simp only [Prod.mk.injEq, true_and]
  omega

theorem civilAt4 (z y d : Int) (hy : yearFromDay z = y)
    (hd : z - dayFromYear y = 90 + inLeapYear y + (d - 1))
    (h1 : 1 ≤ d) (h2 : d ≤ 30) :
    civilFromDays z = (y, 4, d) := by
  have hl := inLeapYear_cases y
  simp only [civilFromDays, hy]
  iterate 3 rw [if_neg (by omega)]
  rw [if_pos (by omega)]
  simp only [Prod.mk.injEq, true_and]
  omega

theorem civilAt5 (z y d : Int) (hy : yearFromDay z = y)
    (hd : z - dayFromYear y = 120 + inLeapYear y + (d - 1))
    (h1 : 1 ≤ d) (h2 : d ≤ 31) :
    civilFromDays z = (y, 5, d) := by
  have hl := inLeapYear_cases y
  simp only [civilFromDays, hy]
  iterate 4 rw [if_neg (by omega)]
  rw [if_pos (by omega)]
  simp only [Prod.mk.injEq, true_and]
  omega

theorem civilAt6 (z y d : Int) (hy : yearFromDay z = y)
    (hd : z - dayFromYear y = 151 + inLeapYear y + (d - 1))
    (h1 : 1 ≤ d) (h2 : d ≤ 30) :
    civilFromDays z = (y, 6, d) := by
  have hl := inLeapYear_cases y
  simp only [civilFromDays, hy]
  iterate 5 rw [if_neg (by omega)]
  rw [if_pos (by omega)]
  simp only [Prod.mk.injEq, true_and]
  omega

theorem civilAt7 (z y d : Int) (hy : yearFromDay z = y)
    (hd : z - dayFromYear y = 181 + inLeapYear y + (d - 1))
    (h1 : 1 ≤ d) (h2 : d ≤ 31) :
    civilFromDays z = (y, 7, d) := by
  have hl := inLeapYear_cases y
  simp only [civilFromDays, hy]
  iterate 6 rw [if_neg (by omega)]
  rw [if_pos (by omega)]
  simp only [Prod.mk.injEq, true_and]
  omega

theorem civilAt8 (z y d : Int) (hy : yearFromDay z = y)
    (hd : z - dayFromYear y = 212 + inLeapYear y + (d - 1))
    (h1 : 1 ≤ d) (h2 : d ≤ 31) :
    civilFromDays z = (y, 8, d) := by
  have hl := inLeapYear_cases y
  simp only [civilFromDays, hy]
  iterate 7 rw [if_neg (by omega)]
  rw [if_pos (by omega)]
  simp only [Prod.mk.injEq, true_and]
  omega

theorem civilAt9 (z y d : Int) (hy : yearFromDay z = y)
    (hd : z - dayFromYear y = 243 + inLeapYear y + (d - 1))
    (h1 : 1 ≤ d) (h2 : d ≤ 30) :
    civilFromDays z = (y, 9, d) := by
  have hl := inLeapYear_cases y
  simp only [civilFromDays, hy]
  iterate 8 rw [if_neg (by omega)]
  rw [if_pos (by omega)]
  simp only [Prod.mk.injEq, true_and]
  omega

theorem civilAt10 (z y d : Int) (hy : yearFromDay z = y)
    (hd : z - dayFromYear y = 273 + inLeapYear y + (d - 1))
    (h1 : 1 ≤ d) (h2 : d ≤ 31) :
    civilFromDays z = (y, 10, d) := by
  have hl := inLeapYear_cases y
  simp only [civilFromDays, hy]
  iterate 9 rw [if_neg (by omega)]
  rw [if_pos (by omega)]
  simp only [Prod.mk.injEq, true_and]
  omega

theorem civilAt11 (z y d : Int) (hy : yearFromDay z = y)
    (hd : z - dayFromYear y = 304 + inLeapYear y + (d - 1))
    (h1 : 1 ≤ d) (h2 : d ≤ 30) :
    civilFromDays z = (y, 11, d) := by
  have hl := inLeapYear_cases y
  simp only [civilFromDays, hy]
  iterate 10 rw [if_neg (by omega)]
  rw [if_pos (by omega)]
  simp only [Prod.mk.injEq, true_and]
  omega

theorem civilAt12 (z y d : Int) (hy : yearFromDay z = y)
    (hd : z - dayFromYear y = 334 + inLeapYear y + (d - 1))
    (h1 : 1 ≤ d) (h2 : d ≤ 31) :
    civilFromDays z = (y, 12, d) := by
  have hl := inLeapYear_cases y
  simp only [civilFromDays, hy]
  iterate 11 rw [if_neg (by omega)]
  simp only [Prod.mk.injEq, true_and]
  omega

/-- For a real calendar date, `MakeDay` followed by the ECMAScript UTC
component functions recovers the civil date. -/
theorem civilFromDays_makeDay (y m d : Int) (hm1 : 1 ≤ m) (hm2 : m ≤ 12)
    (hd1 : 1 ≤ d) (hd2 : d ≤ daysInMonth y m) :
    civilFromDays (makeDay y (m - 1) d) = (y, m, d) := by
  have hmd := makeDay_eq_civil y m d hm1 hm2
  have hy : yearFromDay (makeDay y (m - 1) d) = y := by
    apply yearFromDay_eq
    · rw [hmd]
      have h0 := monthStart_m_nonneg y m hm1 hm2
      omega
    · rw [hmd, dayFromYear_succ, daysInYear_eq]
      have hw := monthStart_window y m hm1 hm2
      omega
  have hdwy : makeDay y (m - 1) d - dayFromYear y =
      monthStart (inLeapYear y) (m - 1) + (d - 1) := by omega
  interval_cases m
  · norm_num [monthStart0] at hdwy hy ⊢
    norm_num [daysInMonth] at hd2
    exact civilAt1 _ y d hy (by omega) hd1 (by omega)
  · norm_num [monthStart1] at hdwy hy ⊢
    norm_num [daysInMonth] at hd2
    exact civilAt2 _ y d hy (by omega) hd1 (by omega)
  · norm_num [monthStart2] at hdwy hy ⊢
    norm_num [daysInMonth] at hd2
    exact civilAt3 _ y d hy (by omega) hd1 (by omega)
  · norm_num [monthStart3] at hdwy hy ⊢
    norm_num [daysInMonth] at hd2
    exact civilAt4 _ y d hy (by omega) hd1 (by omega)
  · norm_num [monthStart4] at hdwy hy ⊢
    norm_num [daysInMonth] at hd2
    exact civilAt5 _ y d hy (by omega) hd1 (by omega)
  · norm_num [monthStart5] at hdwy hy ⊢
    norm_num [daysInMonth] at hd2
    exact civilAt6 _ y d hy (by omega) hd1 (by omega)
  · norm_num [monthStart6] at hdwy hy ⊢
    norm_num [daysInMonth] at hd2
    exact civilAt7 _ y d hy (by omega) hd1 (by omega)
  · norm_num [monthStart7] at hdwy hy ⊢
    norm_num [daysInMonth] at hd2
    exact civilAt8 _ y d hy (by omega) hd1 (by omega)
  · norm_num [monthStart8] at hdwy hy ⊢
    norm_num [daysInMonth] at hd2
    exact civilAt9 _ y d hy (by omega) hd1 (by omega)
  · norm_num [monthStart9] at hdwy hy ⊢
    norm_num [daysInMonth] at hd2
    exact civilAt10 _ y d hy (by omega) hd1 (by omega)
  · norm_num [monthStart10] at hdwy hy ⊢
    norm_num [daysInMonth] at hd2
    exact civilAt11 _ y d hy (by omega) hd1 (by omega)
  · norm_num [monthStart11] at hdwy hy ⊢
    norm_num [daysInMonth] at hd2
    exact civilAt12 _ y d hy (by omega) hd1 (by omega)

theorem daysInMonth_bounds (y m : Int) :
    28 ≤ daysInMonth y m ∧ daysInMonth y m ≤ 31 := by
  have := inLeapYear_cases y
  simp only [daysInMonth]
  split_ifs <;> omega

/-- The calendar predecessor is again a real calendar date, one day earlier
in `MakeDay` day numbers, in the same or previous year. -/
theorem predCivil_spec (y m d : Int) (hm1 : 1 ≤ m) (hm2 : m ≤ 12)
    (hd1 : 1 ≤ d) (hd2 : d ≤ daysInMonth y m) :
    ∃ py pm pd, predCivil y m d = (py, pm, pd) ∧
      1 ≤ pm ∧ pm ≤ 12 ∧ 1 ≤ pd ∧ pd ≤ daysInMonth py pm ∧
      makeDay py (pm - 1) pd = makeDay y (m - 1) d - 1 ∧
      y - 1 ≤ py ∧ py ≤ y := by
  simp only [predCivil]
  split_ifs with h1 h2
  · refine ⟨y, m, d - 1, rfl, hm1, hm2, by omega, by omega, ?_, by omega, by omega⟩
    rw [makeDay_eq_civil y m d hm1 hm2, makeDay_eq_civil y m (d - 1) hm1 hm2]
    omega
  · refine ⟨y, m - 1, daysInMonth y (m - 1), rfl, by omega, by omega, ?_,
      le_refl _, ?_, by omega, by omega⟩
    · have := daysInMonth_bounds y (m - 1)
      omega
    · have e1 := makeDay_eq_civil y (m - 1) (daysInMonth y (m - 1))
        (by omega) (by omega)
      have e2 := makeDay_eq_civil y m d hm1 hm2
      have e3 := monthStart_step y (m - 1) (by omega) (by omega)
      omega
  · have hm0 : m = 1 := by omega
    have hd0 : d = 1 := by omega
    subst hm0
    subst hd0
    refine ⟨y - 1, 12, 31, rfl, by omega, by omega, by omega, ?_, ?_, by omega,
      by omega⟩
    · norm_num [daysInMonth]
    · have e1 := makeDay_eq_civil (y - 1) 12 31 (by omega) (by omega)
      have e2 := makeDay_eq_civil y 1 1 (by omega) (by omega)
      have e3 := dayFromYear_succ (y - 1)
      rw [show y - 1 + 1 = y from by ring] at e3
      have e4 := daysInYear_eq (y - 1)
      have e5 := monthStart11 (inLeapYear (y - 1))
      have e6 := monthStart0 (inLeapYear y)
      norm_num at e1 e2 ⊢
      omega

/-! ## Decimal string lemmas -/

theorem digitVal_digitChar (k : Nat) (h : k < 10) :
    digitVal (Nat.digitChar k) = k := by
  interval_cases k <;> decide

theorem digitChar_isDigit (k : Nat) (h : k < 10) :
    isDigitCh (Nat.digitChar k) = true := by
  interval_cases k <;> decide

theorem digitChar_ne_dash (k : Nat) (h : k < 10) : Nat.digitChar k ≠ '-' := by
  interval_cases k <;> decide

theorem natToCharsAux_fuel (f : Nat) :
    ∀ (g n : Nat), n < 10 ^ (f + 1) → n < 10 ^ (g + 1) →
      natToCharsAux (f + 1) n = natToCharsAux (g + 1) n := by
  induction f with
  | zero =>
    intro g n hf _
    have h10 : n < 10 := by simpa using hf
    simp [natToCharsAux, h10]
  | succ f ih =>
    intro g n hf hg
    by_cases h10 : n < 10
    · simp [natToCharsAux, h10]
    · match g with
      | 0 =>
        exfalso
        have : n < 10 := by simpa using hg
        omega
      | g + 1 =>
        have e1 : natToCharsAux (f + 1 + 1) n =
            if n < 10 then [Nat.digitChar n]
            else natToCharsAux (f + 1) (n / 10) ++ [Nat.digitChar (n % 10)] := rfl
        have e2 : natToCharsAux (g + 1 + 1) n =
            if n < 10 then [Nat.digitChar n]
            else natToCharsAux (g + 1) (n / 10) ++ [Nat.digitChar (n % 10)] := rfl
        rw [e1, e2, if_neg h10, if_neg h10]
        have hdf : n / 10 < 10 ^ (f + 1) :=
          (Nat.div_lt_iff_lt_mul (by norm_num)).mpr (by rw [← pow_succ]; exact hf)
        have hdg : n / 10 < 10 ^ (g + 1) :=
          (Nat.div_lt_iff_lt_mul (by norm_num)).mpr (by rw [← pow_succ]; exact hg)
        rw [ih g (n / 10) hdf hdg]

theorem natToCharsAux_eq (f g n : Nat) (hf1 : 1 ≤ f) (hg1 : 1 ≤ g)
    (hf : n < 10 ^ f) (hg : n < 10 ^ g) :
    natToCharsAux f n = natToCharsAux g n := by
  obtain ⟨fp, rfl⟩ : ∃ k, f = k + 1 := ⟨f - 1, by omega⟩
  obtain ⟨gp, rfl⟩ : ∃ k, g = k + 1 := ⟨g - 1, by omega⟩
  exact natToCharsAux_fuel fp gp n hf hg

theorem lt_ten_pow (n : Nat) : n < 10 ^ (n + 1) :=
  lt_of_lt_of_le (Nat.lt_two_pow n)
    (le_trans (Nat.pow_le_pow_left (by norm_num) n)
      (Nat.pow_le_pow_right (by norm_num) (by omega)))

theorem natToChars_base (n : Nat) (h : n < 10) :
    natToChars n = [Nat.digitChar n] := by
  simp [natToChars, natToCharsAux, h]

theorem natToChars_step (n : Nat) (h : 10 ≤ n) :
    natToChars n = natToChars (n / 10) ++ [Nat.digitChar (n % 10)] := by
  have h1 : natToChars n = natToCharsAux n (n / 10) ++ [Nat.digitChar (n % 10)] := by
    simp [natToChars, natToCharsAux, Nat.not_lt.mpr h]
  rw [h1]
  have h3 : natToCharsAux n (n / 10) = natToCharsAux (n / 10 + 1) (n / 10) :=
    natToCharsAux_eq n (n / 10 + 1) (n / 10) (by omega) (by omega)
      (lt_of_lt_of_le (lt_ten_pow (n / 10))
        (Nat.pow_le_pow_right (by norm_num) (by omega)))
      (lt_ten_pow (n / 10))
  rw [h3]
  rfl

theorem natToChars_ne_nil (n : Nat) : natToChars n ≠ [] := by
  by_cases h : n < 10
  · rw [natToChars_base n h]
    simp
  · rw [natToChars_step n (by omega)]
    simp

theorem natToChars_digits (n : Nat) : ∀ c ∈ natToChars n, isDigitCh c = true := by
  induction n using Nat.strong_induction_on with
  | _ n ih =>
    by_cases h : n < 10
    · rw [natToChars_base n h]
      intro c hc
      rw [List.mem_singleton] at hc
      subst hc
      exact digitChar_isDigit n h
    · rw [natToChars_step n (by omega)]
      intro c hc
      rcases List.mem_append.mp hc with h1 | h1
      · exact ih (n / 10) (by omega) c h1
      · rw [List.mem_singleton] at h1
        subst h1
        exact digitChar_isDigit _ (Nat.mod_lt _ (by norm_num))

theorem digitsToNat_append_one (a : List Char) (c : Char) :
    digitsToNat (a ++ [c]) = 10 * digitsToNat a + digitVal c := by
  simp [digitsToNat, List.foldl_append, Nat.mul_comm]

theorem digitsToNat_natToChars (n : Nat) : digitsToNat (natToChars n) = n := by
  induction n using Nat.strong_induction_on with
  | _ n ih =>
    by_cases h : n < 10
    · rw [natToChars_base n h]
      simp [digitsToNat, digitVal_digitChar n h]
    · rw [natToChars_step n (by omega), digitsToNat_append_one,
        ih (n / 10) (by omega), digitVal_digitChar _ (Nat.mod_lt _ (by norm_num))]
      omega

theorem digit_not_ws (c : Char) (h : isDigitCh c = true) :
    isJsWhitespace c = false := by
  have h1 : c ≠ ' ' := by rintro rfl; exact absurd h (by decide)
  have h2 : c ≠ '\t' := by rintro rfl; exact absurd h (by decide)
  have h3 : c ≠ '\n' := by rintro rfl; exact absurd h (by decide)
  have h4 : c ≠ '\r' := by rintro rfl; exact absurd h (by decide)
  simp [isJsWhitespace, h1, h2, h3, h4]

theorem takeWhile_all (p : Char → Bool) :
    ∀ l : List Char, (∀ c ∈ l, p c = true) → l.takeWhile p = l := by
  intro l
  induction l with
  | nil => intro _; rfl
  | cons c cs ih =>
    intro h
    rw [List.takeWhile_cons, h c (by simp), ih fun x hx => h x (by simp [hx])]
    simp

theorem parseInt10_digits (cs : List Char) (hne : cs ≠ [])
    (hd : ∀ c ∈ cs, isDigitCh c = true) :
    parseInt10 cs = some ((digitsToNat cs : Nat) : Int) := by
  match cs, hne with
  | c :: cs', _ =>
    have hc : isDigitCh c = true := hd c (by simp)
    have hw : isJsWhitespace c = false := digit_not_ws c hc
    have h1 : (c :: cs').dropWhile isJsWhitespace = c :: cs' := by
      rw [List.dropWhile_cons, hw]
      simp
    have hcdash : c ≠ '-' := by rintro rfl; exact absurd hc (by decide)
    have hcplus : c ≠ '+' := by rintro rfl; exact absurd hc (by decide)
    have h2 : digitPrefixVal (c :: cs') = some (digitsToNat (c :: cs')) := by
      simp only [digitPrefixVal, takeWhile_all _ _ hd]
    simp only [parseInt10, h1]
    split
    · rename_i rest heq
      injection heq with h5 h6
      exact absurd h5 hcdash
    · rename_i rest heq
      injection heq with h5 h6
      exact absurd h5 hcplus
    · rw [h2]
      rfl

theorem splitDash_ne_nil (s : List Char) : splitDash s ≠ [] := by
  cases s with
  | nil => simp [splitDash]
  | cons c cs =>
    simp only [splitDash]
    split
    · simp
    · split <;> simp

theorem splitDash_nodash (a : List Char) (ha : ∀ c ∈ a, c ≠ '-') :
    splitDash a = [a] := by
  induction a with
  | nil => rfl
  | cons c cs ih =>
    have hc : c ≠ '-' := ha c (by simp)
    have hcs := ih fun x hx => ha x (by simp [hx])
    simp only [splitDash, if_neg hc, hcs]

theorem splitDash_append (a t : List Char) (ha : ∀ c ∈ a, c ≠ '-') :
    splitDash (a ++ '-' :: t) = a :: splitDash t := by
  induction a with
  | nil => simp [splitDash]
  | cons c cs ih =>
    have hc : c ≠ '-' := ha c (by simp)
    have hcs := ih fun x hx => ha x (by simp [hx])
    simp only [List.cons_append, splitDash, List.append_eq, if_neg hc, hcs]

theorem padStart2_pred (s : List Char) (P : Char → Prop) (h : ∀ c ∈ s, P c)
    (h0 : P '0') : ∀ c ∈ padStart2 s, P c := by
  intro c hc
  simp only [padStart2] at hc
  split at hc
  · rcases List.mem_append.mp hc with h1 | h1
    · rw [List.eq_of_mem_replicate h1]
      exact h0
    · exact h c h1
  · exact h c hc

theorem padStart2_ne_nil (s : List Char) : padStart2 s ≠ [] := by
  simp only [padStart2]
  split <;> rename_i h
  · intro hc
    have := congrArg List.length hc
    simp at this
    omega
  · intro hc
    subst hc
    simp at h

theorem digitsToNat_replicate_zero (k : Nat) (s : List Char) :
    digitsToNat (List.replicate k '0' ++ s) = digitsToNat s := by
  induction k with
  | zero => rfl
  | succ k ih =>
    have : List.replicate (k + 1) '0' ++ s = '0' :: (List.replicate k '0' ++ s) := by
      simp [List.replicate_succ]
    rw [this]
    show List.foldl (fun acc c => acc * 10 + digitVal c) (0 * 10 + digitVal '0')
      (List.replicate k '0' ++ s) = digitsToNat s
    have h0 : 0 * 10 + digitVal '0' = 0 := by decide
    rw [h0]
    exact ih

theorem digitsToNat_padStart2 (s : List Char) :
    digitsToNat (padStart2 s) = digitsToNat s := by
  simp only [padStart2]
  split
  · exact digitsToNat_replicate_zero _ s
  · rfl

theorem parseInt10_padStart2 (s : List Char) (hne : s ≠ [])
    (hd : ∀ c ∈ s, isDigitCh c = true) :
    parseInt10 (padStart2 s) = some ((digitsToNat s : Nat) : Int) := by
  rw [parseInt10_digits (padStart2 s) (padStart2_ne_nil s)
    (fun c hc => padStart2_pred s (fun c => isDigitCh c = true) hd (by decide) c hc)]
  rw [digitsToNat_padStart2]

theorem digit_ne_dash (c : Char) (h : isDigitCh c = true) : c ≠ '-' := by
  rintro rfl
  exact absurd h (by decide)

theorem intToChars_nonneg (i : Int) (h : 0 ≤ i) :
    intToChars i = natToChars i.toNat := by
  simp only [intToChars, if_neg (by omega : ¬ i < 0)]

theorem intToChars_digits (i : Int) (h : 0 ≤ i) :
    ∀ c ∈ intToChars i, isDigitCh c = true := by
  rw [intToChars_nonneg i h]
  exact natToChars_digits i.toNat

theorem intToChars_ne_nil (i : Int) (h : 0 ≤ i) : intToChars i ≠ [] := by
  rw [intToChars_nonneg i h]
  exact natToChars_ne_nil i.toNat

theorem parseInt10_intToChars (i : Int) (h : 0 ≤ i) :
    parseInt10 (intToChars i) = some i := by
  rw [intToChars_nonneg i h,
    parseInt10_digits _ (natToChars_ne_nil i.toNat) (natToChars_digits i.toNat),
    digitsToNat_natToChars]
  rw [Int.toNat_of_nonneg h]

theorem parseInt10_pad_intToChars (i : Int) (h : 0 ≤ i) :
    parseInt10 (padStart2 (intToChars i)) = some i := by
  rw [intToChars_nonneg i h,
    parseInt10_padStart2 _ (natToChars_ne_nil i.toNat) (natToChars_digits i.toNat),
    digitsToNat_natToChars]
  rw [Int.toNat_of_nonneg h]

theorem canonDate_assoc (y m d : Int) :
    canonDate y m d =
      intToChars y ++ '-' ::
        (padStart2 (intToChars m) ++ '-' :: padStart2 (intToChars d)) := by
  simp [canonDate]

theorem canonDate_split (y m d : Int) (hy : 0 ≤ y) (hm : 0 ≤ m) (hd : 0 ≤ d) :
    splitDash (canonDate y m d) =
      [intToChars y, padStart2 (intToChars m), padStart2 (intToChars d)] := by
  rw [canonDate_assoc]
  rw [splitDash_append _ _ fun c hc => digit_ne_dash c (intToChars_digits y hy c hc)]
  rw [splitDash_append _ _ fun c hc =>
    digit_ne_dash c (padStart2_pred _ _ (intToChars_digits m hm) (by decide) c hc)]
  rw [splitDash_nodash _ fun c hc =>
    digit_ne_dash c (padStart2_pred _ _ (intToChars_digits d hd) (by decide) c hc)]

theorem joinDash_splitDash (s : List Char) : joinDash (splitDash s) = s := by
  induction s with
  | nil => rfl
  | cons c cs ih =>
    obtain ⟨q, qs, hqs⟩ : ∃ q qs, splitDash cs = q :: qs := by
      cases hn : splitDash cs with
      | nil => exact absurd hn (splitDash_ne_nil cs)
      | cons q qs => exact ⟨q, qs, rfl⟩
    by_cases hc : c = '-'
    · subst hc
      simp only [splitDash, if_pos rfl, hqs]
      rw [hqs] at ih
      cases qs with
      | nil =>
        simp only [joinDash] at ih
        simp only [joinDash, List.nil_append, ih]
      | cons r rs =>
        simp only [joinDash] at ih
        simp only [joinDash, List.nil_append, ih]
    · simp only [splitDash, if_neg hc, hqs]
      rw [hqs] at ih
      cases qs with
      | nil =>
        simp only [joinDash] at ih ⊢
        rw [ih]
      | cons r rs =>
        simp only [joinDash, List.cons_append] at ih ⊢
        rw [ih]

theorem validDateString_canon (y m d : Int) (h1 : 1000 ≤ y) (h2 : y ≤ 9999)
    (h3 : 1 ≤ m) (h4 : m ≤ 12) (h5 : 1 ≤ d) (h6 : d ≤ daysInMonth y m) :
    validDateString (canonDate y m d) = true := by
  unfold validDateString
  rw [canonDate_split y m d (by omega) (by omega) (by omega)]
  dsimp only
  rw [parseInt10_intToChars y (by omega), parseInt10_pad_intToChars m (by omega),
    parseInt10_pad_intToChars d (by omega)]
  dsimp only
  simp [h1, h2, h3, h4, h5, h6]

theorem validDateString_elim (s : List Char) (h : validDateString s = true) :
    ∃ y m d, 1000 ≤ y ∧ y ≤ 9999 ∧ 1 ≤ m ∧ m ≤ 12 ∧ 1 ≤ d ∧
      d ≤ daysInMonth y m ∧ s = canonDate y m d := by
  unfold validDateString at h
  split at h
  · rename_i ys ms ds heq
    split at h
    · rename_i y m d hpy hpm hpd
      simp only [Bool.and_eq_true, decide_eq_true_eq] at h
      obtain ⟨⟨⟨⟨⟨⟨⟨⟨hy1, hy2⟩, hm1⟩, hm2⟩, hd1⟩, hd2⟩, hys⟩, hms⟩, hds⟩ := h
      refine ⟨y, m, d, hy1, hy2, hm1, hm2, hd1, hd2, ?_⟩
      have hs := joinDash_splitDash s
      rw [heq] at hs
      simp only [joinDash] at hs
      rw [← hs, hys, hms, hds, canonDate_assoc]
    · exact absurd h (by simp)
  · exact absurd h (by simp)

theorem makeDay_bound (y m d : Int) (hy1 : 0 ≤ y) (hy2 : y ≤ 10000)
    (hm1 : 1 ≤ m) (hm2 : m ≤ 12) (hd1 : 0 ≤ d) (hd2 : d ≤ 31) :
    (makeDay y (m - 1) d).natAbs ≤ 100000000 := by
  rw [makeDay_eq_civil y m d hm1 hm2]
  have e := dayFromYear_estimate y
  have h0 := monthStart_m_nonneg y m hm1 hm2
  have hw := monthStart_window y m hm1 hm2
  have hl := inLeapYear_cases y
  have hdim := daysInMonth_bounds y m
  omega

/-- On a canonical well-formed date string, `subtractOneDay` prints the
canonical string of the calendar predecessor. -/
theorem subtractOneDay_canon (y m d : Int) (h1 : 1000 ≤ y) (h2 : y ≤ 9999)
    (h3 : 1 ≤ m) (h4 : m ≤ 12) (h5 : 1 ≤ d) (h6 : d ≤ daysInMonth y m) :
    subtractOneDay (canonDate y m d) =
      canonDate (predCivil y m d).1 (predCivil y m d).2.1
        (predCivil y m d).2.2 := by
  obtain ⟨py, pm, pd, hpred, hpm1, hpm2, hpd1, hpd2, hmk, hpy1, hpy2⟩ :=
    predCivil_spec y m d h3 h4 h5 h6
  rw [hpred]
  have ht : makeDay y (m - 1) (d - 1) = makeDay py (pm - 1) pd := by
    rw [makeDay_eq_civil y m d h3 h4] at hmk
    rw [makeDay_eq_civil y m (d - 1) h3 h4]
    omega
  have hb := daysInMonth_bounds py pm
  have hclip : timeClipDays (makeDay py (pm - 1) pd) =
      some (makeDay py (pm - 1) pd) := by
    simp only [timeClipDays,
      if_pos (makeDay_bound py pm pd (by omega) (by omega) hpm1 hpm2
        (by omega) (by omega))]
  have hp1 := parseInt10_intToChars y (by omega : (0:Int) ≤ y)
  have hp2 := parseInt10_pad_intToChars m (by omega : (0:Int) ≤ m)
  have hp3 := parseInt10_pad_intToChars d (by omega : (0:Int) ≤ d)
  simp only [subtractOneDay]
  rw [canonDate_split y m d (by omega) (by omega) (by omega)]
  simp only [List.get?, Option.some_bind, hp1, hp2, hp3, Option.map_some']
  rw [ht]
  simp only [getUTCFullYear, getUTCMonth, getUTCDate, hclip, Option.map_some',
    civilFromDays_makeDay py pm pd hpm1 hpm2 hpd1 hpd2]
  have hpm' : pm - 1 + 1 = pm := by omega
  rw [hpm']
  simp only [jsNumToChars, canonDate]

theorem dayNum_canon (y m d : Int) (hy : 0 ≤ y) (hm : 0 ≤ m) (hd : 0 ≤ d) :
    dayNum (canonDate y m d) = makeDay y (m - 1) d := by
  unfold dayNum
  rw [canonDate_split y m d hy hm hd]
  dsimp only
  rw [parseInt10_intToChars y hy, parseInt10_pad_intToChars m hm,
    parseInt10_pad_intToChars d hd]

theorem makeDay_inj (y m d y2 m2 d2 : Int)
    (hm1 : 1 ≤ m) (hm2 : m ≤ 12) (hd1 : 1 ≤ d) (hd2 : d ≤ daysInMonth y m)
    (hn1 : 1 ≤ m2) (hn2 : m2 ≤ 12) (he1 : 1 ≤ d2) (he2 : d2 ≤ daysInMonth y2 m2)
    (he : makeDay y (m - 1) d = makeDay y2 (m2 - 1) d2) :
    y = y2 ∧ m = m2 ∧ d = d2 := by
  have c1 := civilFromDays_makeDay y m d hm1 hm2 hd1 hd2
  have c2 := civilFromDays_makeDay y2 m2 d2 hn1 hn2 he1 he2
  rw [he, c2] at c1
  simp only [Prod.mk.injEq] at c1
  exact ⟨c1.1.symm, c1.2.1.symm, c1.2.2.symm⟩

/-- One backward step of the streak loop moves the day number down by
exactly one on any well-formed date string. -/
theorem dayNum_subtractOneDay (s : List Char) (h : validDateString s = true) :
    dayNum (subtractOneDay s) = dayNum s - 1 := by
  obtain ⟨y, m, d, h1, h2, h3, h4, h5, h6, rfl⟩ := validDateString_elim s h
  obtain ⟨py, pm, pd, hpred, hpm1, hpm2, hpd1, hpd2, hmk, hpy1, hpy2⟩ :=
    predCivil_spec y m d h3 h4 h5 h6
  rw [subtractOneDay_canon y m d h1 h2 h3 h4 h5 h6, hpred]
  dsimp only
  rw [dayNum_canon py pm pd (by omega) (by omega) (by omega),
    dayNum_canon y m d (by omega) (by omega) (by omega), hmk]

theorem validDateString_inj (s x : List Char) (hs : validDateString s = true)
    (hx : validDateString x = true) (he : dayNum x = dayNum s) : x = s := by
  obtain ⟨y, m, d, h1, h2, h3, h4, h5, h6, rfl⟩ := validDateString_elim s hs
  obtain ⟨y2, m2, d2, g1, g2, g3, g4, g5, g6, rfl⟩ := validDateString_elim x hx
  rw [dayNum_canon y m d (by omega) (by omega) (by omega),
    dayNum_canon y2 m2 d2 (by omega) (by omega) (by omega)] at he
  obtain ⟨rfl, rfl, rfl⟩ := makeDay_inj y2 m2 d2 y m d g3 g4 g5 g6 h3 h4 h5 h6 he
  rfl

/-- A well-formed date string with the day number of `subtractOneDay s` is
that very string (even when the step crosses below year 1000, in which case
no well-formed string has its day number). -/
theorem subtract_mem_unique (s x : List Char) (hs : validDateString s = true)
    (hx : validDateString x = true)
    (he : dayNum x = dayNum (subtractOneDay s)) : x = subtractOneDay s := by
  obtain ⟨y, m, d, h1, h2, h3, h4, h5, h6, rfl⟩ := validDateString_elim s hs
  obtain ⟨py, pm, pd, hpred, hpm1, hpm2, hpd1, hpd2, hmk, hpy1, hpy2⟩ :=
    predCivil_spec y m d h3 h4 h5 h6
  rw [subtractOneDay_canon y m d h1 h2 h3 h4 h5 h6, hpred] at he ⊢
  dsimp only at he ⊢
  obtain ⟨y2, m2, d2, g1, g2, g3, g4, g5, g6, rfl⟩ := validDateString_elim x hx
  rw [dayNum_canon py pm pd (by omega) (by omega) (by omega),
    dayNum_canon y2 m2 d2 (by omega) (by omega) (by omega)] at he
  obtain ⟨rfl, rfl, rfl⟩ :=
    makeDay_inj y2 m2 d2 py pm pd g3 g4 g5 g6 hpm1 hpm2 hpd1 hpd2 he
  rfl

theorem streakLoop_not_mem (S : List (List Char)) (cur : List Char)
    (h : cur ∉ S) : ∀ f, streakLoop S cur f = 0 := by
  intro f
  cases f with
  | zero => rfl
  | succ f => simp only [streakLoop, if_neg h]

theorem streak_measure_lt (S : List (List Char))
    (hall : ∀ x ∈ S, validDateString x = true) (cur : List Char)
    (hcur : cur ∈ S) :
    (S.toFinset.filter fun x => dayNum x ≤ dayNum (subtractOneDay cur)).card <
      (S.toFinset.filter fun x => dayNum x ≤ dayNum cur).card := by
  have hvc := hall cur hcur
  have hdn := dayNum_subtractOneDay cur hvc
  have hsub : (S.toFinset.filter fun x => dayNum x ≤ dayNum (subtractOneDay cur)) ⊆
      (S.toFinset.filter fun x => dayNum x ≤ dayNum cur).erase cur := by
    intro x hx
    rw [Finset.mem_filter] at hx
    rw [Finset.mem_erase, Finset.mem_filter]
    refine ⟨?_, hx.1, by omega⟩
    rintro rfl
    omega
  have hmem : cur ∈ S.toFinset.filter fun x => dayNum x ≤ dayNum cur := by
    rw [Finset.mem_filter]
    exact ⟨List.mem_toFinset.mpr hcur, le_refl _⟩
  calc (S.toFinset.filter fun x => dayNum x ≤ dayNum (subtractOneDay cur)).card
      ≤ ((S.toFinset.filter fun x => dayNum x ≤ dayNum cur).erase cur).card :=
        Finset.card_le_card hsub
    _ < (S.toFinset.filter fun x => dayNum x ≤ dayNum cur).card := by
        rw [Finset.card_erase_of_mem hmem]
        have := Finset.card_pos.mpr ⟨cur, hmem⟩
        omega

/-- With well-formed dates, the streak loop's answer does not depend on the
fuel once the fuel exceeds the number of distinct candidate dates at or
below the current day. -/
theorem streakLoop_congr (S : List (List Char))
    (hall : ∀ x ∈ S, validDateString x = true) :
    ∀ (k : Nat) (cur : List Char) (f1 f2 : Nat),
      (S.toFinset.filter fun x => dayNum x ≤ dayNum cur).card ≤ k →
      k < f1 → k < f2 → streakLoop S cur f1 = streakLoop S cur f2 := by
  intro k
  induction k with
  | zero =>
    intro cur f1 f2 hm h1 h2
    have hnot : cur ∉ S := by
      intro hcur
      have hmem : cur ∈ S.toFinset.filter fun x => dayNum x ≤ dayNum cur := by
        rw [Finset.mem_filter]
        exact ⟨List.mem_toFinset.mpr hcur, le_refl _⟩
      have := Finset.card_pos.mpr ⟨cur, hmem⟩
      omega
    rw [streakLoop_not_mem S cur hnot f1, streakLoop_not_mem S cur hnot f2]
  | succ k ih =>
    intro cur f1 f2 hm h1 h2
    obtain ⟨a, rfl⟩ : ∃ a, f1 = a + 1 := ⟨f1 - 1, by omega⟩
    obtain ⟨b, rfl⟩ : ∃ b, f2 = b + 1 := ⟨f2 - 1, by omega⟩
    simp only [streakLoop]
    by_cases hcur : cur ∈ S
    · rw [if_pos hcur, if_pos hcur]
      have hlt := streak_measure_lt S hall cur hcur
      rw [ih (subtractOneDay cur) a b (by omega) (by omega) (by omega)]
    · rw [if_neg hcur, if_neg hcur]

/-- Characterization of the streak loop on well-formed dates: it returns
`j` exactly when the `j` calendar days walking backward from the current
day are all success dates and the day before those is not. -/
theorem streakLoop_spec (S : List (List Char))
    (hall : ∀ x ∈ S, validDateString x = true) :
    ∀ (f : Nat) (cur : List Char), validDateString cur = true →
      (S.toFinset.filter fun x => dayNum x ≤ dayNum cur).card < f →
      (∀ i : Nat, i < streakLoop S cur f →
        ∃ x ∈ S, dayNum x = dayNum cur - (i : Int)) ∧
      (∀ x ∈ S, dayNum x ≠ dayNum cur - (streakLoop S cur f : Int)) := by
  intro f
  induction f with
  | zero =>
    intro cur _ hm
    omega
  | succ f ih =>
    intro cur hvc hm
    by_cases hcur : cur ∈ S
    · have hstep : streakLoop S cur (f + 1) =
          streakLoop S (subtractOneDay cur) f + 1 := by
        simp only [streakLoop, if_pos hcur]
      have hdn := dayNum_subtractOneDay cur hvc
      have hlt := streak_measure_lt S hall cur hcur
      by_cases hnext : subtractOneDay cur ∈ S
      · have hvn := hall _ hnext
        obtain ⟨ha, hb⟩ := ih (subtractOneDay cur) hvn (by omega)
        rw [hstep]
        constructor
        · intro i hi
          cases i with
          | zero => exact ⟨cur, hcur, by simp⟩
          | succ i =>
            obtain ⟨x, hxS, hx⟩ := ha i (by omega)
            exact ⟨x, hxS, by push_cast at hx ⊢; omega⟩
        · intro x hxS
          have := hb x hxS
          push_cast at this ⊢
          omega
      · have hz : streakLoop S (subtractOneDay cur) f = 0 :=
          streakLoop_not_mem S _ hnext f
        rw [hstep, hz]
        constructor
        · intro i hi
          have : i = 0 := by omega
          subst this
          exact ⟨cur, hcur, by simp⟩
        · intro x hxS hx
          have hvx := hall x hxS
          have : dayNum x = dayNum (subtractOneDay cur) := by
            push_cast at hx
            omega
          exact hnext (subtract_mem_unique cur x hvc hvx this ▸ hxS)
    · have hz : streakLoop S cur (f + 1) = 0 := streakLoop_not_mem S cur hcur _
      rw [hz]
      constructor
      · intro i hi
        omega
      · intro x hxS hx
        have hvx := hall x hxS
        have : dayNum x = dayNum cur := by push_cast at hx; omega
        exact hcur (validDateString_inj cur x hvc hvx this ▸ hxS)

/-! ## Shared rank facts -/

theorem calculateResistRank_cases (n : Int) :
    (n < 0 → calculateResistRank n = 1) ∧
    (0 ≤ n → calculateResistRank n = min (n / 5 + 1) 30) ∧
    1 ≤ calculateResistRank n ∧ calculateResistRank n ≤ 30 := by
  simp only [calculateResistRank, RESIST_RANK_START, RESIST_RANK_CAP,
    RESIST_RANK_RESISTS_PER_LEVEL]
  split_ifs <;> omega

theorem calculateResistRank_mono (a b : Int) (h : a ≤ b) :
    calculateResistRank a ≤ calculateResistRank b := by
  simp only [calculateResistRank, RESIST_RANK_START, RESIST_RANK_CAP,
    RESIST_RANK_RESISTS_PER_LEVEL]
  split_ifs <;> omega

/-! ## Claims about the pure progress rules -/

/-- C4: for every integer input `n`, `calculateResistRank` returns the start
rank 1 when `n` is negative, and otherwise `floor(n / 5) + 1` clamped to the
cap 30, so the result always lies in `[1, 30]`. -/
theorem C4_rank_formula (n : Int) :
    (n < 0 → calculateResistRank n = 1) ∧
    (0 ≤ n → calculateResistRank n = min (n / 5 + 1) 30) ∧
    1 ≤ calculateResistRank n ∧ calculateResistRank n ≤ 30 :=
  calculateResistRank_cases n

theorem C4_rank_formula_witness :
    calculateResistRank (-3) = 1 ∧
    calculateResistRank 7 = min (7 / 5 + 1) 30 ∧
    1 ≤ calculateResistRank 7 ∧ calculateResistRank 7 ≤ 30 :=
  ⟨(C4_rank_formula (-3)).1 (by decide), (C4_rank_formula 7).2.1 (by decide),
    (C4_rank_formula 7).2.2⟩

/-- C6: along any non-decreasing sequence of lifetime resist totals the rank
outputs are non-decreasing and never exceed the cap 30. -/
theorem C6_rank_monotone (f : Nat → Int) (hf : ∀ i j : Nat, i ≤ j → f i ≤ f j) :
    (∀ i j : Nat, i ≤ j → calculateResistRank (f i) ≤ calculateResistRank (f j)) ∧
    (∀ i : Nat, calculateResistRank (f i) ≤ 30) :=
  ⟨fun i j h => calculateResistRank_mono (f i) (f j) (hf i j h),
   fun i => (calculateResistRank_cases (f i)).2.2.2⟩

theorem C6_rank_monotone_witness :
    calculateResistRank ((2 : Nat) : Int) ≤ calculateResistRank ((11 : Nat) : Int) ∧
    calculateResistRank ((7 : Nat) : Int) ≤ 30 :=
  ⟨(C6_rank_monotone (fun i => (i : Int)) (fun i j h => by simp only []; exact_mod_cast h)).1
      2 11 (by decide),
   (C6_rank_monotone (fun i => (i : Int)) (fun i j h => by simp only []; exact_mod_cast h)).2 7⟩

/-- C7: the resist-counter guard fires exactly on the `success` outcome, and
the spend-avoided guard fires exactly on a `spend` urge with a `success`
outcome. -/
theorem C7_increment_guards :
    ∀ (o : UrgeOutcome) (k : UrgeKind),
      (shouldIncrementResist o = true ↔ o = UrgeOutcome.success) ∧
      (shouldIncrementSpendAvoided k o = true ↔
        k = UrgeKind.spend ∧ o = UrgeOutcome.success) := by
  intro o k
  cases o <;> cases k <;>
    simp [shouldIncrementResist, shouldIncrementSpendAvoided]

/-- C10: with well-formed `YYYY-MM-DD` inputs, each backward step of the
streak walk moves to the strictly previous calendar day, and the loop's
result is already final with one iteration per distinct date plus one, so
the `while` loop terminates. -/
theorem C10_streak_terminates (dates : List (List Char)) (today : List Char)
    (htoday : validDateString today = true)
    (hdates : ∀ s ∈ dates, validDateString s = true) :
    (∀ s, validDateString s = true →
      dayNum (subtractOneDay s) = dayNum s - 1) ∧
    ∀ f : Nat, dates.dedup.length + 1 ≤ f →
      streakLoop dates today f = calculateStreak dates today := by
  refine ⟨fun s hs => dayNum_subtractOneDay s hs, fun f hf => ?_⟩
  unfold calculateStreak
  have hcard : (dates.toFinset.filter fun x => dayNum x ≤ dayNum today).card ≤
      dates.dedup.length := by
    calc (dates.toFinset.filter fun x => dayNum x ≤ dayNum today).card
        ≤ dates.toFinset.card := Finset.card_filter_le _ _
      _ = dates.dedup.length := List.card_toFinset dates
  have hlen : dates.dedup.length ≤ dates.length :=
    List.Sublist.length_le (List.dedup_sublist dates)
  exact streakLoop_congr dates hdates dates.dedup.length today f
    (dates.length + 1) hcard (by omega) (by omega)

theorem C10_streak_terminates_witness :
    streakLoop
      ["2026-02-15".data, "2026-02-16".data, "2026-02-17".data,
        "2026-02-18".data] "2026-02-18".data 9 =
    calculateStreak
      ["2026-02-15".data, "2026-02-16".data, "2026-02-17".data,
        "2026-02-18".data] "2026-02-18".data :=
  (C10_streak_terminates _ _ (by decide) (by decide)).2 9 (by decide)

/-- C5: on well-formed dates, `calculateStreak` returns the number of
consecutive success dates walking backward from `today` inclusive, stopping
at the first calendar-day gap (each counted day is a success date, the day
before the run is not), it returns 0 whenever `today` is not a success
date, and on the spec's example set it returns 4 for today = 2026-02-18
and 0 for today = 2026-02-19. -/
theorem C5_streak_correct (dates : List (List Char)) (today : List Char)
    (htoday : validDateString today = true)
    (hdates : ∀ s ∈ dates, validDateString s = true) :
    ((∀ i : Nat, i < calculateStreak dates today →
        ∃ s ∈ dates, dayNum s = dayNum today - (i : Int)) ∧
      (∀ s ∈ dates, dayNum s ≠
        dayNum today - (calculateStreak dates today : Int)) ∧
      (today ∉ dates → calculateStreak dates today = 0)) ∧
    calculateStreak
      ["2026-02-15".data, "2026-02-16".data, "2026-02-17".data,
        "2026-02-18".data] "2026-02-18".data = 4 ∧
    calculateStreak
      ["2026-02-15".data, "2026-02-16".data, "2026-02-17".data,
        "2026-02-18".data] "2026-02-19".data = 0 := by
  have hcard : (dates.toFinset.filter fun x => dayNum x ≤ dayNum today).card <
      dates.length + 1 := by
    have h1 : (dates.toFinset.filter fun x => dayNum x ≤ dayNum today).card ≤
        dates.toFinset.card := Finset.card_filter_le _ _
    have h2 : dates.toFinset.card = dates.dedup.length := List.card_toFinset dates
    have h3 : dates.dedup.length ≤ dates.length :=
      List.Sublist.length_le (List.dedup_sublist dates)
    omega
  obtain ⟨ha, hb⟩ := streakLoop_spec dates hdates (dates.length + 1) today
    htoday hcard
  exact ⟨⟨ha, hb, fun hnot => streakLoop_not_mem dates today hnot _⟩,
    by decide, by decide⟩

theorem C5_streak_correct_witness :
    calculateStreak
      ["2026-02-15".data, "2026-02-16".data, "2026-02-17".data,
        "2026-02-18".data] "2026-02-18".data = 4 :=
  (C5_streak_correct
    ["2026-02-15".data, "2026-02-16".data, "2026-02-17".data,
      "2026-02-18".data] "2026-02-18".data (by decide) (by decide)).2.1

/-! ## Store, rows and the export service

The local store (expo-sqlite, an external collaborator) is modelled as six
row lists, one per underlying table, with rows as association lists of
column name to JSON value.  Write operations can fail; the environment's
failure pattern is an explicit oracle `fails : Nat → Bool` over operation
indices, and the store's exclusive-transaction primitive restores the
initial state whenever the body reports an error (spec §2's contract for
the Local Store collaborator). -/

/-- C1: whenever any step of the import commit fails — malformed row,
column-shape error, or underlying write failure — commit surfaces the error
and every one of the six underlying tables holds exactly the rows it held
before commit was called: no partial deletes, no partial inserts. -/
theorem C1_import_atomic (fails : Nat → Bool) (db : Store) (input : JsVal)
    (s2 : Store) (e : ImportError)
    (h : importData fails db input = (s2, some e)) :
    s2.user_profile = db.user_profile ∧ s2.urge_event = db.urge_event ∧
    s2.daily_checkin = db.daily_checkin ∧ s2.progress = db.progress ∧
    s2.content_progress = db.content_progress ∧
    s2.subscription_state = db.subscription_state := by
  unfold importData withExclusiveTransaction at h
  split at h
  · exact absurd (congrArg Prod.snd h) (by simp)
  · rw [Prod.mk.injEq] at h
    obtain ⟨h1, -⟩ := h
    subst h1
    exact ⟨rfl, rfl, rfl, rfl, rfl, rfl⟩

theorem C1_import_atomic_witness :
    (importData (fun _ => false) exStore badEnvelope).1.urge_event =
      exStore.urge_event ∧
    (importData (fun _ => false) exStore badEnvelope).1.user_profile =
      exStore.user_profile :=
  let h := C1_import_atomic (fun _ => false) exStore badEnvelope
    (importData (fun _ => false) exStore badEnvelope).1
    (ImportError.rowNotObject "urge_event") rfl
  ⟨h.2.1, h.1⟩

/-- Unfolding of `validateImportData` on an object input. -/
theorem validateImportData_obj (fields : List (String × JsVal)) :
    validateImportData (JsVal.objV fields) =
      match lookupKey fields "version" with
      | some (JsVal.numV q) =>
        if q = 1 then
          match lookupKey fields "tables" with
          | some (JsVal.objV tf) => do
            let up ← requireArray tf "user_profile"
            let ue ← requireArray tf "urge_events"
            let dc ← requireArray tf "daily_checkins"
            let pr ← requireArray tf "progress"
            let cp ← requireArray tf "content_progress"
            let ss ← requireArray tf "subscription_state"
            pure ⟨up.length, ue.length, dc.length, pr.length, cp.length,
              ss.length⟩
          | _ => Except.error ImportError.tablesNotAnObject
        else Except.error ImportError.badVersion
      | _ => Except.error ImportError.badVersion := rfl

/-- C3: import validation succeeds only when the input carries `version`
equal to exactly the number 1: any object whose version field is anything
else (0, 2, the string "1", or absent) is rejected with a version error,
every successful validation was of an object with version exactly 1, and an
otherwise well-formed envelope with version 1 is accepted. -/
theorem C3_version_gate :
    (∀ fields : List (String × JsVal),
      lookupKey fields "version" ≠ some (JsVal.numV 1) →
      validateImportData (JsVal.objV fields) =
        Except.error ImportError.badVersion) ∧
    (∀ (input : JsVal) (c : ImportTableCounts),
      validateImportData input = Except.ok c →
      ∃ fields, input = JsVal.objV fields ∧
        lookupKey fields "version" = some (JsVal.numV 1)) ∧
    (∀ (fields tf : List (String × JsVal)),
      lookupKey fields "version" = some (JsVal.numV 1) →
      lookupKey fields "tables" = some (JsVal.objV tf) →
      (∀ k ∈ logicalKeys, ∃ l, lookupKey tf k = some (JsVal.arrV l)) →
      ∃ c, validateImportData (JsVal.objV fields) = Except.ok c) := by
  refine ⟨?_, ?_, ?_⟩
  · intro fields hne
    rw [validateImportData_obj]
    cases hv : lookupKey fields "version" with
    | none => rfl
    | some v =>
      cases v with
      | numV q =>
        have hq : ¬ q = 1 := fun he => hne (by rw [hv, he])
        simp only [if_neg hq]
      | nullV => rfl
      | boolV b => rfl
      | strV t => rfl
      | arrV l => rfl
      | objV f => rfl
  · intro input c h
    cases input with
    | objV fields =>
      refine ⟨fields, rfl, ?_⟩
      rw [validateImportData_obj] at h
      cases hv : lookupKey fields "version" with
      | none => rw [hv] at h; exact absurd h (by simp)
      | some v =>
        rw [hv] at h
        cases v with
        | numV q =>
          by_cases hq : q = 1
          · rw [hq]
          · dsimp only at h
            rw [if_neg hq] at h
            exact absurd h (by simp)
        | nullV => exact absurd h (by simp)
        | boolV b => exact absurd h (by simp)
        | strV t => exact absurd h (by simp)
        | arrV l => exact absurd h (by simp)
        | objV f => exact absurd h (by simp)
    | nullV => exact absurd h (by simp [validateImportData])
    | boolV b => exact absurd h (by simp [validateImportData])
    | numV q => exact absurd h (by simp [validateImportData])
    | strV t => exact absurd h (by simp [validateImportData])
    | arrV l => exact absurd h (by simp [validateImportData])
  · intro fields tf hv ht hk
    obtain ⟨l1, h1⟩ := hk "user_profile" (by simp [logicalKeys])
    obtain ⟨l2, h2⟩ := hk "urge_events" (by simp [logicalKeys])
    obtain ⟨l3, h3⟩ := hk "daily_checkins" (by simp [logicalKeys])
    obtain ⟨l4, h4⟩ := hk "progress" (by simp [logicalKeys])
    obtain ⟨l5, h5⟩ := hk "content_progress" (by simp [logicalKeys])
    obtain ⟨l6, h6⟩ := hk "subscription_state" (by simp [logicalKeys])
    refine ⟨⟨l1.length, l2.length, l3.length, l4.length, l5.length,
      l6.length⟩, ?_⟩
    rw [validateImportData_obj, hv]
    simp only [if_pos rfl]
    rw [ht]
    simp only [requireArray, h1, h2, h3, h4, h5, h6]
    rfl

theorem C3_version_gate_witness :
    validateImportData (JsVal.objV [("version", JsVal.numV 0)]) =
      Except.error ImportError.badVersion ∧
    validateImportData (JsVal.objV [("version", JsVal.numV 2)]) =
      Except.error ImportError.badVersion ∧
    validateImportData (JsVal.objV [("version", JsVal.strV "1")]) =
      Except.error ImportError.badVersion ∧
    validateImportData (JsVal.objV [("exported_at", JsVal.strV "x")]) =
      Except.error ImportError.badVersion ∧
    ∃ c, validateImportData badEnvelope = Except.ok c :=
  ⟨C3_version_gate.1 _ (by simp [lookupKey]),
   C3_version_gate.1 _ (by simp [lookupKey]),
   C3_version_gate.1 _ (by simp [lookupKey]),
   C3_version_gate.1 _ (by simp [lookupKey]),
   C3_version_gate.2.2 _ _ rfl rfl
     (by intro k hk; fin_cases hk <;> exact ⟨_, rfl⟩)⟩

/-- C8: for every store state, the gathered envelope has version exactly 1
and, as JSON, a `tables` object carrying all six logical keys, each present
even when empty, whose rows are the underlying table's rows passed through
verbatim with every column and no field filtering. -/
theorem C8_export_shape (db : Store) (ts : String) :
    (gatherExportData db ts).version = 1 ∧
    envelopeToJsVal (gatherExportData db ts) =
      JsVal.objV
        [("version", JsVal.numV 1), ("exported_at", JsVal.strV ts),
         ("app_version", JsVal.strV APP_VERSION),
         ("tables", JsVal.objV (exportTablesJson db))] ∧
    lookupKey (exportTablesJson db) "user_profile" =
      some (JsVal.arrV (db.user_profile.map JsVal.objV)) ∧
    lookupKey (exportTablesJson db) "urge_events" =
      some (JsVal.arrV (db.urge_event.map JsVal.objV)) ∧
    lookupKey (exportTablesJson db) "daily_checkins" =
      some (JsVal.arrV (db.daily_checkin.map JsVal.objV)) ∧
    lookupKey (exportTablesJson db) "progress" =
      some (JsVal.arrV (db.progress.map JsVal.objV)) ∧
    lookupKey (exportTablesJson db) "content_progress" =
      some (JsVal.arrV (db.content_progress.map JsVal.objV)) ∧
    lookupKey (exportTablesJson db) "subscription_state" =
      some (JsVal.arrV (db.subscription_state.map JsVal.objV)) :=
  ⟨rfl, rfl, rfl, rfl, rfl, rfl, rfl, rfl⟩

/-- C9 counterexample: with the third underlying delete failing, the
full-wipe of `app/settings/privacy.tsx` surfaces an error but leaves the
store partially wiped — `content_progress` and `urge_event` are already
empty while `daily_checkin` (and the rest) still hold their rows, the state
the claim says is impossible. -/
theorem C9_delete_partial_wipe_possible :
    (deleteAllData (fun i => decide (i = 2)) exStore).2 =
      some ImportError.storage ∧
    (deleteAllData (fun i => decide (i = 2)) exStore).1.content_progress = [] ∧
    (deleteAllData (fun i => decide (i = 2)) exStore).1.urge_event = [] ∧
    (deleteAllData (fun i => decide (i = 2)) exStore).1.daily_checkin =
      [exRow1] ∧
    (deleteAllData (fun i => decide (i = 2)) exStore).1.user_profile =
      [exRow1] :=
  ⟨rfl, rfl, rfl, rfl, rfl⟩

/-- C9 (amended): `deleteAllData` issues its six underlying deletes
sequentially, without a transaction.  Either no delete fails, every table
is emptied and no error is reported; or the first failing delete (say the
`k`-th) surfaces a storage error to the caller and the store is left with
exactly the first `k` tables of the fixed order (`content_progress`,
`urge_event`, `daily_checkin`, `progress`, `user_profile`,
`subscription_state`) emptied and the remaining tables unchanged — a
partial wipe is possible. -/
theorem C9_delete_all_behaviour (fails : Nat → Bool) (db : Store) :
    (deleteAllData fails db = (Store.mk [] [] [] [] [] [], none) ∧
      ∀ j, j < 6 → fails j = false) ∨
    ∃ k, k < 6 ∧ fails k = true ∧ (∀ j, j < k → fails j = false) ∧
      deleteAllData fails db =
        ((deleteAllDataOps.take k).foldl applyOp db,
          some ImportError.storage) := by
  simp only [deleteAllData, deleteAllDataOps, List.map, runScript]
  by_cases f0 : fails 0
  · refine Or.inr ⟨0, by omega, f0, by omega, ?_⟩
    simp [f0, runScript]
  · by_cases f1 : fails 1
    · refine Or.inr ⟨1, by omega, f1, ?_, ?_⟩
      · intro j hj
        interval_cases j
        simpa using f0
      · simp [f0, f1, runScript, deleteAllDataOps, applyOp]
    · by_cases f2 : fails 2
      · refine Or.inr ⟨2, by omega, f2, ?_, ?_⟩
        · intro j hj
          interval_cases j
          · simpa using f0
          · simpa using f1
        · simp [f0, f1, f2, runScript, deleteAllDataOps, applyOp]
      · by_cases f3 : fails 3
        · refine Or.inr ⟨3, by omega, f3, ?_, ?_⟩
          · intro j hj
            interval_cases j
            · simpa using f0
            · simpa using f1
            · simpa using f2
          · simp [f0, f1, f2, f3, runScript, deleteAllDataOps, applyOp]
        · by_cases f4 : fails 4
          · refine Or.inr ⟨4, by omega, f4, ?_, ?_⟩
            · intro j hj
              interval_cases j
              · simpa using f0
              · simpa using f1
              · simpa using f2
              · simpa using f3
            · simp [f0, f1, f2, f3, f4, runScript, deleteAllDataOps, applyOp]
          · by_cases f5 : fails 5
            · refine Or.inr ⟨5, by omega, f5, ?_, ?_⟩
              · intro j hj
                interval_cases j
                · simpa using f0
                · simpa using f1
                · simpa using f2
                · simpa using f3
                · simpa using f4
              · simp [f0, f1, f2, f3, f4, f5, runScript, deleteAllDataOps,
                  applyOp]
            · refine Or.inl ⟨?_, ?_⟩
              · simp [f0, f1, f2, f3, f4, f5, runScript, applyOp, setTable]
              · intro j hj
                interval_cases j
                · simpa using f0
                · simpa using f1
                · simpa using f2
                · simpa using f3
                · simpa using f4
                · simpa using f5

theorem C9_delete_all_behaviour_witness :
    deleteAllData (fun _ => false) exStore =
      (Store.mk [] [] [] [] [] [], none) :=
  ((C9_delete_all_behaviour (fun _ => false) exStore).resolve_right
    (by rintro ⟨k, -, hk, -⟩; simp at hk)).1

/-! ## Round-trip support -/

theorem zip_fst_snd (l : List (String × JsVal)) :
    (l.map Prod.fst).zip (l.map Prod.snd) = l := by
  have h := List.zip_unzip l
  rw [List.unzip_eq_map] at h
  exact h

theorem colValues_cons_ne (k : String) (v : JsVal) (rf : Row)
    (cs : List String) (h : ∀ c ∈ cs, c ≠ k) :
    colValues ((k, v) :: rf) cs = colValues rf cs := by
  induction cs with
  | nil => rfl
  | cons c cs ih =>
    have hck : ¬ k = c := fun he => h c (by simp) he.symm
    simp only [colValues, lookupKey, if_neg hck]
    rw [ih fun x hx => h x (by simp [hx])]

theorem colValues_self (rf : Row) (hnd : (rf.map Prod.fst).Nodup) :
    colValues rf (rf.map Prod.fst) = some (rf.map Prod.snd) := by
  induction rf with
  | nil => rfl
  | cons p rest ih =>
    obtain ⟨k, v⟩ := p
    simp only [List.map_cons, List.nodup_cons] at hnd
    have h1 : lookupKey ((k, v) :: rest) k = some v := by
      simp [lookupKey]
    simp only [List.map_cons, colValues, h1]
    rw [colValues_cons_ne k v rest (rest.map Prod.fst)
      fun c hc he => hnd.1 (he ▸ hc)]
    rw [ih hnd.2]

theorem insertOps_wellShaped (k : String) (rows : List Row)
    (hws : wellShaped rows) :
    insertOps k (rows.map JsVal.objV) =
      rows.map fun r =>
        Except.ok (DbOp.insertRow (underlyingTable k) (r.map Prod.fst)
          (r.map Prod.snd)) := by
  cases rows with
  | nil => rfl
  | cons first rest =>
    obtain ⟨hnd, hcols⟩ := hws
    simp only [List.map_cons, insertOps]
    congr 1
    · rw [colValues_self first hnd]
    · rw [List.map_map]
      apply List.map_congr_left
      intro r hr
      have hcr : r.map Prod.fst = first.map Prod.fst :=
        hcols r (by simp [hr])
      have hndr : (r.map Prod.fst).Nodup := hcr ▸ hnd
      simp only [Function.comp]
      rw [← hcr, colValues_self r hndr, hcr]

theorem setTable_get (db : Store) (t : String) :
    setTable db t (getTable db t) = db := by
  unfold setTable getTable
  split_ifs <;> rfl

theorem getTable_set (db : Store) (t : String) (rows : List Row)
    (ht : t ∈ tableNames) : getTable (setTable db t rows) t = rows := by
  fin_cases ht <;> rfl

theorem setTable_set (db : Store) (t : String) (a b : List Row) :
    setTable (setTable db t a) t b = setTable db t b := by
  unfold setTable
  split_ifs <;> rfl

theorem runScript_inserts (t : String) (ht : t ∈ tableNames)
    (rows : List Row) :
    ∀ (i : Nat) (db : Store),
      runScript noFail
        (rows.map fun r =>
          Except.ok (DbOp.insertRow t (r.map Prod.fst) (r.map Prod.snd)))
        i db =
      (setTable db t (getTable db t ++ rows), none) := by
  induction rows with
  | nil =>
    intro i db
    simp [runScript, setTable_get]
  | cons r rest ih =>
    intro i db
    simp only [List.map_cons, runScript, noFail, Bool.false_eq_true, if_false]
    rw [ih (i + 1)
      (applyOp db (DbOp.insertRow t (r.map Prod.fst) (r.map Prod.snd)))]
    simp only [applyOp, zip_fst_snd]
    rw [getTable_set db t _ ht, setTable_set]
    rw [show (getTable db t ++ [r]) ++ rest = getTable db t ++ r :: rest by
      simp]

theorem runScript_noFail_append (a b : List ScriptItem) :
    ∀ (i : Nat) (db : Store),
      runScript noFail (a ++ b) i db =
        match runScript noFail a i db with
        | (db2, none) => runScript noFail b (i + a.length) db2
        | (db2, some e) => (db2, some e) := by
  induction a with
  | nil =>
    intro i db
    simp [runScript]
  | cons item rest ih =>
    intro i db
    cases item with
    | error e => rfl
    | ok op =>
      simp only [List.cons_append, runScript, noFail, Bool.false_eq_true,
        if_false, List.append_eq]
      rw [ih (i + 1) (applyOp db op)]
      simp only [List.length_cons]
      rw [show i + 1 + rest.length = i + (rest.length + 1) by omega]

theorem runScript_seq (a b : List ScriptItem) (i : Nat) (db st : Store)
    (ha : runScript noFail a i db = (st, none)) :
    runScript noFail (a ++ b) i db = runScript noFail b (i + a.length) st := by
  rw [runScript_noFail_append, ha]

/-- C2: exporting a snapshot and committing the validated gathered envelope
back restores the store exactly, per table, per row, per column.  Rows of
one table share the export schema's column list (`wellShaped`, guaranteed
by `SELECT *` on the export side). -/
theorem C2_round_trip (db : Store) (ts : String)
    (hne : db.user_profile ≠ [] ∨ db.urge_event ≠ [] ∨ db.daily_checkin ≠ [] ∨
      db.progress ≠ [] ∨ db.content_progress ≠ [] ∨
      db.subscription_state ≠ [])
    (h1 : wellShaped db.user_profile) (h2 : wellShaped db.urge_event)
    (h3 : wellShaped db.daily_checkin) (h4 : wellShaped db.progress)
    (h5 : wellShaped db.content_progress)
    (h6 : wellShaped db.subscription_state) :
    validateImportData (envelopeToJsVal (gatherExportData db ts)) =
      Except.ok ⟨db.user_profile.length, db.urge_event.length,
        db.daily_checkin.length, db.progress.length,
        db.content_progress.length, db.subscription_state.length⟩ ∧
    importData noFail db (envelopeToJsVal (gatherExportData db ts)) =
      (db, none) := by
  constructor
  · have hval : validateImportData (envelopeToJsVal (gatherExportData db ts)) =
        Except.ok ⟨(db.user_profile.map JsVal.objV).length,
          (db.urge_event.map JsVal.objV).length,
          (db.daily_checkin.map JsVal.objV).length,
          (db.progress.map JsVal.objV).length,
          (db.content_progress.map JsVal.objV).length,
          (db.subscription_state.map JsVal.objV).length⟩ := rfl
    rw [hval]
    simp [List.length_map]
  · unfold importData withExclusiveTransaction
    have hscript : importScript (envelopeToJsVal (gatherExportData db ts)) =
        [Except.ok (DbOp.deleteAll "user_profile"),
         Except.ok (DbOp.deleteAll "urge_event"),
         Except.ok (DbOp.deleteAll "daily_checkin"),
         Except.ok (DbOp.deleteAll "progress"),
         Except.ok (DbOp.deleteAll "content_progress"),
         Except.ok (DbOp.deleteAll "subscription_state")] ++
          (insertOps "user_profile" (db.user_profile.map JsVal.objV) ++
            (insertOps "urge_events" (db.urge_event.map JsVal.objV) ++
              (insertOps "daily_checkins" (db.daily_checkin.map JsVal.objV) ++
                (insertOps "progress" (db.progress.map JsVal.objV) ++
                  (insertOps "content_progress"
                      (db.content_progress.map JsVal.objV) ++
                    (insertOps "subscription_state"
                        (db.subscription_state.map JsVal.objV) ++
                      [])))))) := rfl
    have i1 := insertOps_wellShaped "user_profile" db.user_profile h1
    have i2 := insertOps_wellShaped "urge_events" db.urge_event h2
    have i3 := insertOps_wellShaped "daily_checkins" db.daily_checkin h3
    have i4 := insertOps_wellShaped "progress" db.progress h4
    have i5 := insertOps_wellShaped "content_progress" db.content_progress h5
    have i6 := insertOps_wellShaped "subscription_state"
      db.subscription_state h6
    simp only [show underlyingTable "user_profile" = "user_profile" from rfl,
      show underlyingTable "urge_events" = "urge_event" from rfl,
      show underlyingTable "daily_checkins" = "daily_checkin" from rfl,
      show underlyingTable "progress" = "progress" from rfl,
      show underlyingTable "content_progress" = "content_progress" from rfl,
      show underlyingTable "subscription_state" = "subscription_state" from
        rfl] at i1 i2 i3 i4 i5 i6
    rw [hscript, i1, i2, i3, i4, i5, i6]
    have hd : runScript noFail
        [Except.ok (DbOp.deleteAll "user_profile"),
         Except.ok (DbOp.deleteAll "urge_event"),
         Except.ok (DbOp.deleteAll "daily_checkin"),
         Except.ok (DbOp.deleteAll "progress"),
         Except.ok (DbOp.deleteAll "content_progress"),
         Except.ok (DbOp.deleteAll "subscription_state")] 0 db =
        (Store.mk [] [] [] [] [] [], none) := rfl
    have e1 : ∀ i, runScript noFail
        (db.user_profile.map fun r => Except.ok
          (DbOp.insertRow "user_profile" (r.map Prod.fst) (r.map Prod.snd)))
        i (Store.mk [] [] [] [] [] []) =
        (Store.mk db.user_profile [] [] [] [] [], none) := by
      intro i
      rw [runScript_inserts "user_profile" (by simp [tableNames])
        db.user_profile]
      simp [getTable, setTable]
    have e2 : ∀ i, runScript noFail
        (db.urge_event.map fun r => Except.ok
          (DbOp.insertRow "urge_event" (r.map Prod.fst) (r.map Prod.snd)))
        i (Store.mk db.user_profile [] [] [] [] []) =
        (Store.mk db.user_profile db.urge_event [] [] [] [], none) := by
      intro i
      rw [runScript_inserts "urge_event" (by simp [tableNames]) db.urge_event]
      simp [getTable, setTable]
    have e3 : ∀ i, runScript noFail
        (db.daily_checkin.map fun r => Except.ok
          (DbOp.insertRow "daily_checkin" (r.map Prod.fst) (r.map Prod.snd)))
        i (Store.mk db.user_profile db.urge_event [] [] [] []) =
        (Store.mk db.user_profile db.urge_event db.daily_checkin [] [] [],
          none) := by
      intro i
      rw [runScript_inserts "daily_checkin" (by simp [tableNames])
        db.daily_checkin]
      simp [getTable, setTable]
    have e4 : ∀ i, runScript noFail
        (db.progress.map fun r => Except.ok
          (DbOp.insertRow "progress" (r.map Prod.fst) (r.map Prod.snd)))
        i (Store.mk db.user_profile db.urge_event db.daily_checkin [] [] []) =
        (Store.mk db.user_profile db.urge_event db.daily_checkin db.progress
          [] [], none) := by
      intro i
      rw [runScript_inserts "progress" (by simp [tableNames]) db.progress]
      simp [getTable, setTable]
    have e5 : ∀ i, runScript noFail
        (db.content_progress.map fun r => Except.ok
          (DbOp.insertRow "content_progress" (r.map Prod.fst)
            (r.map Prod.snd)))
        i (Store.mk db.user_profile db.urge_event db.daily_checkin db.progress
          [] []) =
        (Store.mk db.user_profile db.urge_event db.daily_checkin db.progress
          db.content_progress [], none) := by
      intro i
      rw [runScript_inserts "content_progress" (by simp [tableNames])
        db.content_progress]
      simp [getTable, setTable]
    have e6 : ∀ i, runScript noFail
        (db.subscription_state.map fun r => Except.ok
          (DbOp.insertRow "subscription_state" (r.map Prod.fst)
            (r.map Prod.snd)))
        i (Store.mk db.user_profile db.urge_event db.daily_checkin db.progress
          db.content_progress []) =
        (Store.mk db.user_profile db.urge_event db.daily_checkin db.progress
          db.content_progress db.subscription_state, none) := by
      intro i
      rw [runScript_inserts "subscription_state" (by simp [tableNames])
        db.subscription_state]
      simp [getTable, setTable]
    rw [runScript_seq _ _ _ _ _ hd]
    rw [runScript_seq _ _ _ _ _ (e1 _)]
    rw [runScript_seq _ _ _ _ _ (e2 _)]
    rw [runScript_seq _ _ _ _ _ (e3 _)]
    rw [runScript_seq _ _ _ _ _ (e4 _)]
    rw [runScript_seq _ _ _ _ _ (e5 _)]
    rw [runScript_seq _ _ _ _ _ (e6 _)]
    rfl

theorem C2_round_trip_witness :
    importData noFail exStore
      (envelopeToJsVal (gatherExportData exStore "2026-02-28T00:00:00.000Z")) =
      (exStore, none) :=
  (C2_round_trip exStore "2026-02-28T00:00:00.000Z"
    (Or.inl (by simp [exStore]))
    ⟨by decide, by intro r hr; simp [exStore] at hr; rw [hr]⟩
    ⟨by decide, by intro r hr; simp [exStore] at hr; rw [hr]⟩
    ⟨by decide, by intro r hr; simp [exStore] at hr; rw [hr]⟩
    ⟨by decide, by intro r hr; simp [exStore] at hr; rw [hr]⟩
    ⟨by decide, by intro r hr; simp [exStore] at hr; rw [hr]⟩
    ⟨by decide, by intro r hr; simp [exStore] at hr; rw [hr]⟩).2
